import Mathlib

/-!
# A voice receptionist: dialogue policy and connection session

A shallow embedding of `src/services/gpt-service.js` (class `GptService`) and of the
per-connection handlers of `src/app.js`, with the properties of the specification
stated over them.

Conventions of the embedding.

* A JavaScript string is the list of its UTF-16 code units (`JsString`), so `length`,
  `includes` and the regular expressions are the ones of the language.
* Asynchronous collaborators (the conversational model, the contractor lookup) are
  functions of the arguments they are called with; what they answer is arbitrary.
* Every observable effect of `completion` is appended to a log of `Event`s.
-/

namespace StableAgents

/-! ## Strings -/

/-- A JavaScript string: its UTF-16 code units. -/
abbrev JsString := List Nat

/-- The code units of an ASCII literal of the source. -/
def js (s : String) : JsString := s.toList.map Char.toNat

/-- `hay.includes(needle)`. -/
def includes : JsString → JsString → Bool
  | [], needle => needle.isPrefixOf []
  | c :: cs, needle => needle.isPrefixOf (c :: cs) || includes cs needle

/-- `String.prototype.toLowerCase` on the ASCII range: `A`..`Z` go to `a`..`z`, every
other code unit is kept.  The full Unicode mapping is a parameter of the functions that
lower-case; this is its restriction to ASCII text, used to run them on literals. -/
def asciiToLowerCase (s : JsString) : JsString :=
  s.map (fun c => if 65 ≤ c ∧ c ≤ 90 then c + 32 else c)

/-- `Canonicalize` of a regular expression with the `i` flag and without the `u` flag,
as far as it can affect a comparison with an ASCII pattern character: `a`..`z` go to
`A`..`Z`.  (A code unit above 127 is never canonicalised to an ASCII one.) -/
def canonicalize (c : Nat) : Nat := if 97 ≤ c ∧ c ≤ 122 then c - 32 else c

/-- `text.match(/(a1|a2|...)/i)` is truthy: some alternative occurs in the text, letters
compared without case. -/
def matchAlternationIgnoreCase (alternatives : List JsString) (text : JsString) : Bool :=
  alternatives.any (fun a => includes (text.map canonicalize) (a.map canonicalize))

/-- The character class `\d`. -/
def isDigit (c : Nat) : Bool := decide (48 ≤ c ∧ c ≤ 57)

/-- The character class `\w`, which decides where `\b` holds. -/
def isWordChar (c : Nat) : Bool :=
  isDigit c || decide (65 ≤ c ∧ c ≤ 90) || decide (97 ≤ c ∧ c ≤ 122) || c == 95

/-- `/\b\d{5}\b/` tried at one position: `prev` is the code unit before the position
(none at the start of the text), `rest` the text from the position on. -/
def zipAt (prev : Option Nat) (rest : JsString) : Option JsString :=
  match rest with
  | d1 :: d2 :: d3 :: d4 :: d5 :: tail =>
    if isDigit d1 && isDigit d2 && isDigit d3 && isDigit d4 && isDigit d5
        && !(prev.any isWordChar) && !(tail.head?.any isWordChar)
    then some [d1, d2, d3, d4, d5] else none
  | _ => none

/-- The leftmost match of `/\b\d{5}\b/` from a position on. -/
def zipFrom (prev : Option Nat) : JsString → Option JsString
  | [] => none
  | c :: cs =>
    match zipAt prev (c :: cs) with
    | some z => some z
    | none => zipFrom (some c) cs

/-- `text.match(/\b\d{5}\b/)`: `zipMatch[0]` when there is a match, `null` otherwise. -/
def zipMatch (text : JsString) : Option JsString := zipFrom none text

/-! ## `GptService` -/

/-- The keys of `serviceKeywords`. -/
inductive ServiceType
  | plumbing | electrical | hvac | general
  deriving DecidableEq, Repr

/-- The key as the string interpolated into a message. -/
def ServiceType.toJs : ServiceType → JsString
  | .plumbing => js "plumbing"
  | .electrical => js "electrical"
  | .hvac => js "hvac"
  | .general => js "general"

/-- The object `serviceKeywords`, in the order of `Object.entries`. -/
def serviceKeywords : List (ServiceType × List JsString) :=
  [ (.plumbing, [js "toilet", js "sink", js "pipe", js "drain", js "faucet", js "plumb",
      js "water", js "bathroom"]),
    (.electrical, [js "electric", js "power", js "light", js "outlet", js "switch",
      js "wire"]),
    (.hvac, [js "heat", js "air", js "ac", js "furnace", js "hvac", js "cooling",
      js "temperature"]),
    (.general, [js "wall", js "ceiling", js "repair", js "fix", js "broken",
      js "maintenance", js "damage", js "hole", js "crack"]) ]

/-- The loop of `determineServiceType` over the entries still to try. -/
def determineServiceTypeLoop (lowered : JsString) :
    List (ServiceType × List JsString) → Option ServiceType
  | [] => none
  | (type, keywords) :: rest =>
    if keywords.any (fun keyword => includes lowered keyword) then some type
    else determineServiceTypeLoop lowered rest

/-- `GptService.determineServiceType(text)`; `null` is `none`. -/
def determineServiceType (toLowerCase : JsString → JsString) (text : JsString) :
    Option ServiceType :=
  determineServiceTypeLoop (toLowerCase text) serviceKeywords

/-- One entry of `userContext`; `name` is absent for the caller's own turns. -/
structure Message where
  role : JsString
  name : Option JsString
  content : JsString
  deriving DecidableEq, Repr

/-- The content of the system message the constructor puts first in `userContext`. -/
def systemPrompt : JsString :=
  js "You are a friendly and efficient virtual receptionist for a home services platform. Your role is to help customers connect with the right service professionals for their home repair needs. Follow these guidelines:\n"
  ++ js "\n"
  ++ js "1. Be concise but thorough in understanding the issue\n"
  ++ js "2. Always get specific details about:\n"
  ++ js "   - What exactly is broken/not working\n"
  ++ js "   - How long has it been an issue\n"
  ++ js "   - Is it an emergency\n"
  ++ js "   - Any relevant details about severity\n"
  ++ js "\n"
  ++ js "3. Follow this conversation flow:\n"
  ++ js "   - Get initial problem description\n"
  ++ js "   - Ask 2-3 specific follow-up questions about the issue\n"
  ++ js "   - Once you have enough details, ask for zip code\n"
  ++ js "   - After zip code, check contractor availability\n"
  ++ js "   - If they want to schedule, get preferred time and urgency\n"
  ++ js "   \n"
  ++ js "4. Response patterns:\n"
  ++ js "   - Keep initial responses short: \"What's happening with your [item]?\"\n"
  ++ js "   - Ask specific follow-ups: \"Is it completely clogged or just draining slowly?\"\n"
  ++ js "   - For zip code: \"What's your zip code?\"\n"
  ++ js "   - For scheduling: \"When would you like the contractor to come? Is this urgent?\"\n"
  ++ js "\n"
  ++ js "5. Important rules:\n"
  ++ js "   - Ask one clear question at a time\n"
  ++ js "   - Get enough details to inform the contractor\n"
  ++ js "   - Focus on severity and urgency\n"
  ++ js "   - Keep responses under 15 words unless describing contractor availability"

/-- The fields of a `GptService` that `completion` reads or writes.  (`callSid` and
`conversationState` are written once and never read.) -/
structure GptService where
  userContext : List Message
  partialResponseIndex : Nat
  serviceType : Option ServiceType
  detailsCollected : Bool
  deriving DecidableEq, Repr

/-- The state `new GptService()` builds. -/
def GptService.new : GptService :=
  { userContext := [{ role := js "system", name := none, content := systemPrompt }]
    partialResponseIndex := 0
    serviceType := none
    detailsCollected := false }

/-- What `dbService.findAvailableContractor(zipCode, serviceType)` settles to: a result
with `found` true and the contractor's `name` and `company_name` as interpolated, a
result with `found` false, or a rejection. -/
inductive LookupResult
  | found (name company_name : JsString)
  | notFound
  | throws
  deriving DecidableEq, Repr

/-- How an iteration over the model's stream ends once its chunks are used up. -/
inductive StreamEnd
  | done | throws
  deriving DecidableEq, Repr

/-- The stream `openai.chat.completions.create` resolves to: for each chunk the value of
`chunk.choices[0]?.delta?.content || ''`, then the way the iteration ends. -/
structure TokenStream where
  chunks : List JsString
  ending : StreamEnd
  deriving DecidableEq, Repr

/-- What `openai.chat.completions.create(...)` settles to. -/
inductive CreateResult
  | throws
  | stream (tokens : TokenStream)
  deriving DecidableEq, Repr

/-- Everything `completion` takes from outside the class. -/
structure Collaborators where
  toLowerCase : JsString → JsString
  findAvailableContractor : JsString → ServiceType → LookupResult
  create : List Message → CreateResult

/-- The first argument of a `gptreply` event. -/
structure GptReply where
  partialResponseIndex : Nat
  partialResponse : JsString
  deriving DecidableEq, Repr

/-- The observable effects of `completion`, in the order they happen. -/
inductive Event
  | gptreply (gptReply : GptReply) (interactionCount : Nat)
  | lookup (zipCode : JsString) (serviceType : ServiceType)
  | request (messages : List Message)
  | chunk (content : JsString)
  deriving DecidableEq, Repr

/-- A run of a piece of `completion`: the service after it, what it did, and whether it
ended by throwing. -/
structure Run where
  svc : GptService
  log : List Event
  threw : Bool
  deriving DecidableEq, Repr

/-- The object `updateUserContext` pushes: with `name` unless the name is `'user'`. -/
def contextEntry (name role text : JsString) : Message :=
  if name ≠ js "user" then { role := role, name := some name, content := text }
  else { role := role, name := none, content := text }

/-- `GptService.updateUserContext(name, role, text)`. -/
def updateUserContext (s : GptService) (name role text : JsString) : GptService :=
  { s with userContext := s.userContext ++ [contextEntry name role text] }

/-- The object `handleZipCode` resolves to. -/
structure ZipAnswer where
  found : Bool
  message : JsString
  deriving DecidableEq, Repr

/-- The `try`/`catch` of `handleZipCode`: the object returned for each way the lookup
settles. -/
def availabilityAnswer (serviceType : ServiceType) : LookupResult → ZipAnswer
  | .found name company_name =>
    { found := true
      message := js "Perfect! " ++ name ++ js " from " ++ company_name
        ++ js " specializes in " ++ serviceType.toJs
        ++ js " issues. Would you like to schedule an appointment?" }
  | .notFound =>
    { found := false
      message := js "I apologize, but I don't have any contractors available in your area right now." }
  | .throws =>
    { found := false
      message := js "I'm having trouble checking availability. Could you try your zip code again?" }

/-- `GptService.handleZipCode(zipCode)`, with the lookup it issues. -/
def handleZipCode (env : Collaborators) (s : GptService) (zipCode : JsString) :
    ZipAnswer × List Event :=
  match s.serviceType with
  | none =>
    ({ found := false
       message := js "I need to understand what service you need first. What's the issue?" }, [])
  | some serviceType =>
    (availabilityAnswer serviceType (env.findAvailableContractor zipCode serviceType),
     [.lookup zipCode serviceType])

/-- `this.emit('gptreply', { partialResponseIndex: this.partialResponseIndex++,
partialResponse }, interactionCount)`. -/
def emitReply (s : GptService) (text : JsString) (interactionCount : Nat) :
    GptService × Event :=
  ({ s with partialResponseIndex := s.partialResponseIndex + 1 },
   .gptreply { partialResponseIndex := s.partialResponseIndex, partialResponse := text }
     interactionCount)

/-- How a `for await` loop over the stream is left. -/
inductive LoopExit
  | broke | exhausted | threw
  deriving DecidableEq, Repr

/-- The values a `for await` loop leaves behind; `index` is `this.partialResponseIndex`
after it. -/
structure LoopResult where
  completeResponse : JsString
  index : Nat
  log : List Event
  exit : LoopExit
  deriving DecidableEq, Repr

/-- The `for await (const chunk of stream)` loop, the same in both branches.  `index` is
`this.partialResponseIndex` on entry; the loop emits at most once, right before `break`. -/
def streamLoop (interactionCount index : Nat) (ending : StreamEnd) :
    List JsString → JsString → JsString → LoopResult
  | [], completeResponse, _ =>
    { completeResponse := completeResponse
      index := index
      log := []
      exit := if ending = .throws then .threw else .exhausted }
  | content :: rest, completeResponse, partialResponse =>
    if content ≠ [] then
      if includes (partialResponse ++ content) (js "?") then
        { completeResponse := completeResponse ++ content
          index := index + 1
          log := [.chunk content,
            .gptreply { partialResponseIndex := index
                        partialResponse := partialResponse ++ content } interactionCount]
          exit := .broke }
      else
        let r := streamLoop interactionCount index ending rest
          (completeResponse ++ content) (partialResponse ++ content)
        { r with log := .chunk content :: r.log }
    else
      let r := streamLoop interactionCount index ending rest completeResponse partialResponse
      { r with log := .chunk content :: r.log }

/-- The one-off instruction of the follow-up request. -/
def followUpInstruction : Message :=
  { role := js "system", name := none
    content := js "Ask ONE specific follow-up question about their issue. Focus on severity, urgency, or duration of the problem." }

/-- The one-off instruction of the initial request. -/
def initialInstruction : Message :=
  { role := js "system", name := none
    content := js "Ask a specific question about their problem. Focus on what exactly is wrong." }

/-- The text of the location-code prompt. -/
def zipPrompt : JsString := js "What's your zip code?"

/-- The turn `this.userContext.push({'role': 'assistant', 'content': completeResponse})`
appends. -/
def assistantTurn (completeResponse : JsString) : Message :=
  { role := js "assistant", name := none, content := completeResponse }

/-- The branch `if (this.serviceType && !this.detailsCollected)` of the `try` block. -/
def followUpBranch (env : Collaborators) (s : GptService) (interactionCount : Nat) : Run :=
  let messages := s.userContext ++ [followUpInstruction]
  match env.create messages with
  | .throws => { svc := s, log := [.request messages], threw := true }
  | .stream tokens =>
    let r := streamLoop interactionCount s.partialResponseIndex tokens.ending tokens.chunks [] []
    if r.exit = .threw then
      { svc := { s with partialResponseIndex := r.index }
        log := .request messages :: r.log
        threw := true }
    else if s.userContext.length ≥ 4 then
      let out := emitReply { s with partialResponseIndex := r.index, detailsCollected := true }
        zipPrompt interactionCount
      { svc := { out.1 with userContext := s.userContext ++ [assistantTurn r.completeResponse] }
        log := .request messages :: r.log ++ [out.2]
        threw := false }
    else
      { svc := { s with partialResponseIndex := r.index
                        userContext := s.userContext ++ [assistantTurn r.completeResponse] }
        log := .request messages :: r.log
        threw := false }

/-- The last part of the `try` block, "Initial problem understanding". -/
def initialBranch (env : Collaborators) (s : GptService) (interactionCount : Nat) : Run :=
  let messages := s.userContext ++ [initialInstruction]
  match env.create messages with
  | .throws => { svc := s, log := [.request messages], threw := true }
  | .stream tokens =>
    let r := streamLoop interactionCount s.partialResponseIndex tokens.ending tokens.chunks [] []
    if r.exit = .threw then
      { svc := { s with partialResponseIndex := r.index }
        log := .request messages :: r.log
        threw := true }
    else
      { svc := { s with partialResponseIndex := r.index
                        userContext := s.userContext ++ [assistantTurn r.completeResponse] }
        log := .request messages :: r.log
        threw := false }

/-- The `try` block of `completion`; `zip` is `zipMatch`. -/
def tryBlock (env : Collaborators) (s : GptService) (zip : Option JsString)
    (interactionCount : Nat) : Run :=
  if s.serviceType.isSome && !s.detailsCollected then
    followUpBranch env s interactionCount
  else if s.serviceType.isSome && s.detailsCollected && zip.isNone then
    let out := emitReply s zipPrompt interactionCount
    { svc := out.1, log := [out.2], threw := false }
  else
    initialBranch env s interactionCount

/-- The alternatives of `yesPattern`. -/
def yesPattern : List JsString :=
  [js "yes", js "yeah", js "sure", js "okay", js "yep", js "yup", js "definitely",
   js "absolutely", js "please"]

/-- The alternatives of `noPattern`. -/
def noPattern : List JsString :=
  [js "no", js "nah", js "nope", js "not", js "don't"]

/-- `this.userContext.slice(-2)[0]?.content || ''`. -/
def lastMsg (s : GptService) : JsString :=
  match s.userContext.drop (s.userContext.length - 2) with
  | [] => []
  | m :: _ => m.content

/-- The reply to an accepted offer. -/
def scheduleFollowUp : JsString :=
  js "When would you prefer the contractor to come? And is this an urgent matter?"

/-- The reply to a declined offer. -/
def scheduleDecline : JsString :=
  js "No problem. Please call back when you'd like to schedule."

/-- The reply of the `catch` block. -/
def retryPrompt : JsString := js "Could you repeat that?"

/-- The `catch` block of `completion`, run when the `try` block threw. -/
def catchBlock (r : Run) (interactionCount : Nat) : Run :=
  if r.threw then
    let out := emitReply r.svc retryPrompt interactionCount
    { svc := out.1, log := r.log ++ [out.2], threw := false }
  else r

/-- The step "Determine service type if not already set". -/
def resolveServiceType (env : Collaborators) (s : GptService) (text : JsString) :
    GptService :=
  if s.serviceType.isSome then s
  else { s with serviceType := determineServiceType env.toLowerCase text }

/-- The part of `completion` from "Check for scheduling response" on; `s1` is the service
after `updateUserContext`. -/
def completionRest (env : Collaborators) (s1 : GptService) (text : JsString)
    (interactionCount : Nat) : Run :=
  if includes (lastMsg s1) (js "schedule an appointment")
      && matchAlternationIgnoreCase yesPattern text then
    let out := emitReply s1 scheduleFollowUp interactionCount
    { svc := out.1, log := [out.2], threw := false }
  else if includes (lastMsg s1) (js "schedule an appointment")
      && matchAlternationIgnoreCase noPattern text then
    let out := emitReply s1 scheduleDecline interactionCount
    { svc := out.1, log := [out.2], threw := false }
  else
    catchBlock (tryBlock env (resolveServiceType env s1 text) (zipMatch text) interactionCount)
      interactionCount

/-- The body of `if (zipMatch && this.serviceType && this.detailsCollected)`: the
availability check and the emission of its message. -/
def zipFastPath (env : Collaborators) (s1 : GptService) (zipCode : JsString)
    (interactionCount : Nat) : Run :=
  let result := handleZipCode env s1 zipCode
  let out := emitReply s1 result.1.message interactionCount
  { svc := out.1, log := result.2 ++ [out.2], threw := false }

/-- The part of `completion` after `updateUserContext`; `s1` is the service after it. -/
def completionBody (env : Collaborators) (s1 : GptService) (text : JsString)
    (interactionCount : Nat) : Run :=
  match zipMatch text with
  | some zipCode =>
    if s1.serviceType.isSome && s1.detailsCollected then
      zipFastPath env s1 zipCode interactionCount
    else completionRest env s1 text interactionCount
  | none => completionRest env s1 text interactionCount

/-- `GptService.completion(text, interactionCount, role, name)`.  `threw` of the result
says whether the promise is rejected. -/
def completion (env : Collaborators) (s : GptService) (text : JsString)
    (interactionCount : Nat) (role name : JsString) : Run :=
  completionBody env (updateUserContext s name role text) text interactionCount

/-- One call of `completion`: its arguments and what the collaborators answer during it. -/
structure Call where
  env : Collaborators
  text : JsString
  interactionCount : Nat
  role : JsString
  name : JsString

/-- The call made on the service `s`.  (`app.js` leaves `role` and `name` at their default
`'user'`.) -/
def Call.run (s : GptService) (c : Call) : Run :=
  completion c.env s c.text c.interactionCount c.role c.name

/-- Calls of `completion` one after the other on the same service: the service after the
last one and the events of all of them, in order. -/
def runCalls (s : GptService) : List Call → GptService × List Event
  | [] => (s, [])
  | c :: cs =>
    let r := c.run s
    let rest := runCalls r.svc cs
    (rest.1, r.log ++ rest.2)

/-- The `gptreply` events of a log, in emission order. -/
def replies : List Event → List (GptReply × Nat)
  | [] => []
  | .gptreply r ic :: es => (r, ic) :: replies es
  | _ :: es => replies es

/-- The requests to the conversational model in a log. -/
def requests : List Event → List (List Message)
  | [] => []
  | .request m :: es => m :: requests es
  | _ :: es => requests es

/-- The chunks taken from the model's stream in a log. -/
def chunksRead : List Event → List JsString
  | [] => []
  | .chunk c :: es => c :: chunksRead es
  | _ :: es => chunksRead es

/-- The replies of a log are numbered `i`, `i+1`, ... and `j` is the counter after them. -/
def Numbered (i : Nat) (log : List Event) (j : Nat) : Prop :=
  (replies log).map (fun r => r.1.partialResponseIndex) = List.range' i (replies log).length
    ∧ j = i + (replies log).length

/-- Every reply of a log carries the interaction index `ic`. -/
def Tagged (ic : Nat) (log : List Event) : Prop :=
  ∀ r ∈ replies log, r.2 = ic

/-! ## The connection session of `app.js` -/

/-- `MIN_SPEECH_LENGTH`. -/
def MIN_SPEECH_LENGTH : Nat := 3

/-- `MAX_SILENCE_TIME`, in milliseconds. -/
def MAX_SILENCE_TIME : Int := 800

/-- `ACK_COOLDOWN`, in milliseconds. -/
def ACK_COOLDOWN : Int := 300

/-- `MAX_ACKS_PER_UTTERANCE`. -/
def MAX_ACKS_PER_UTTERANCE : Nat := 1

/-- `ACKNOWLEDGMENTS[i]` for `i` the value of
`Math.floor(Math.random() * ACKNOWLEDGMENTS.length)`. -/
def ACKNOWLEDGMENTS (i : Fin 3) : JsString :=
  match i with
  | 0 => js "Got it."
  | 1 => js "Okay."
  | 2 => js "I see."

/-- The text of the greeting sent on `start`. -/
def greeting : JsString := js "Hello! How can I help you with your home service needs today?"

/-- The object `connectionState`.  Timestamps are values of `Date.now()`; `silenceTimer`
is the handle `setTimeout` returned last, `null` before the first frame. -/
structure ConnectionState where
  streamSid : Option JsString
  callSid : Option JsString
  lastSpeechTimestamp : Int
  lastAckTimestamp : Int
  silenceTimer : Option Nat
  processingResponse : Bool
  currentSpeech : JsString
  interactionCount : Nat
  currentUtteranceAcks : Nat
  deriving DecidableEq, Repr

/-- One connection: `connectionState` and what the handlers reach besides it.
`timers` are the armed timeouts (handle and deadline) whose callback is `handleSilence`,
`nextTimer` the handle the next `setTimeout` returns, `wsSilenceTimer` the property
`ws.silenceTimer`, `registered` whether `ws` is in `activeConnections`, `terminated`
whether `ws.terminate()` was called, and `inFlight` counts the calls of
`gptService.completion` that have started and not yet settled. -/
structure Session where
  connectionState : ConnectionState
  timers : List (Nat × Int)
  nextTimer : Nat
  wsSilenceTimer : Option Nat
  registered : Bool
  terminated : Bool
  inFlight : Nat
  deriving DecidableEq, Repr

/-- The session right after `app.ws('/connection', ...)` ran, at time `now`. -/
def Session.connect (now : Int) : Session :=
  { connectionState :=
      { streamSid := none
        callSid := none
        lastSpeechTimestamp := now
        lastAckTimestamp := 0
        silenceTimer := none
        processingResponse := false
        currentSpeech := []
        interactionCount := 0
        currentUtteranceAcks := 0 }
    timers := []
    nextTimer := 0
    wsSilenceTimer := none
    registered := true
    terminated := false
    inFlight := 0 }

/-- What the session does to its collaborators, in order.  `ack` and `greeting` are the
two calls of `ttsService.generate` with a `null` fragment index; `ack` keeps the value of
`now` at the call.  `send` is `transcriptionService.send(msg.media.payload)`, with `none`
for a payload that is `undefined`. -/
inductive Output
  | greeting (interactionCount : Nat)
  | ack (text : JsString) (interactionCount : Nat) (now : Int)
  | transcription (text : JsString)
  | completion (text : JsString) (interactionCount : Nat)
  | send (payload : Option JsString)
  | terminate
  deriving DecidableEq, Repr

/-- The handler of `'transcription'` up to the `await`: the guard, the two assignments
and the call of `gptService.completion`. -/
def transcriptionBegin (s : Session) (text : JsString) : Session × List Output :=
  if text = [] ∨ s.connectionState.processingResponse = true
      ∨ text.length < MIN_SPEECH_LENGTH then
    (s, [])
  else
    ({ s with
        connectionState :=
          { s.connectionState with processingResponse := true, currentUtteranceAcks := 0 }
        inFlight := s.inFlight + 1 },
     [.completion text s.connectionState.interactionCount])

/-- The handler of `'transcription'` from the `await` on, run when the call of
`gptService.completion` it started settles: `resolved` says whether it returned. -/
def transcriptionEnd (s : Session) (resolved : Bool) : Session :=
  if s.inFlight = 0 then s
  else
    { s with
        connectionState :=
          { s.connectionState with
              interactionCount :=
                if resolved then s.connectionState.interactionCount + 1
                else s.connectionState.interactionCount
              processingResponse := false
              currentSpeech := [] }
        inFlight := s.inFlight - 1 }

/-- `handleSilence()`: `emit('transcription', ...)` runs the handler above up to its
`await` before the two assignments. -/
def handleSilence (s : Session) : Session × List Output :=
  if s.connectionState.currentSpeech ≠ []
      ∧ s.connectionState.currentSpeech.length ≥ MIN_SPEECH_LENGTH then
    let r := transcriptionBegin s s.connectionState.currentSpeech
    ({ r.1 with
        connectionState :=
          { r.1.connectionState with currentSpeech := [], currentUtteranceAcks := 0 } },
     .transcription s.connectionState.currentSpeech :: r.2)
  else (s, [])

/-- The handler of `'utterance'`; `now` is `Date.now()` and `choice` the index drawn. -/
def onUtterance (s : Session) (text : JsString) (now : Int) (choice : Fin 3) :
    Session × List Output :=
  if text ≠ [] ∧ text.length ≥ MIN_SPEECH_LENGTH then
    if s.connectionState.processingResponse = false
        ∧ s.connectionState.currentUtteranceAcks < MAX_ACKS_PER_UTTERANCE
        ∧ now - s.connectionState.lastAckTimestamp > ACK_COOLDOWN then
      ({ s with
          connectionState :=
            { s.connectionState with
                currentSpeech := text
                lastSpeechTimestamp := now
                lastAckTimestamp := now
                currentUtteranceAcks := s.connectionState.currentUtteranceAcks + 1 } },
       [.ack (ACKNOWLEDGMENTS choice) s.connectionState.interactionCount now])
    else
      ({ s with
          connectionState :=
            { s.connectionState with currentSpeech := text, lastSpeechTimestamp := now } },
       [])
  else (s, [])

/-- `clearTimeout(handle)`. -/
def clearTimeout (timers : List (Nat × Int)) (handle : Nat) : List (Nat × Int) :=
  timers.filter (fun t => t.1 ≠ handle)

/-- `cleanupConnection(ws)`. -/
def cleanupConnection (s : Session) : Session × List Output :=
  ({ s with
      registered := false
      timers := match s.wsSilenceTimer with
        | some h => clearTimeout s.timers h
        | none => s.timers
      terminated := true },
   [.terminate])

/-- An inbound message as far as the handler looks at it: `data` that `JSON.parse`
rejects or that is not an object, or the parsed `msg` by its `event`.  `start` and `media`
carry the members read (`none` when `msg.start` or `msg.media` is missing), `mark` whether
`msg.mark` is there.  `mediaWithoutPayload` is a `media` message whose `media` member is
there and has no `payload`, as in `{"event":"media","media":{}}`. -/
inductive Inbound
  | unparseable
  | start (ids : Option (JsString × JsString))
  | media (payload : Option JsString)
  | mediaWithoutPayload
  | mark (present : Bool)
  | stop
  | other
  deriving DecidableEq, Repr

/-- The case `'media'` up to the call of `transcriptionService.send`: the timestamp, the
`clearTimeout` of the timer set before and the new `setTimeout(handleSilence,
MAX_SILENCE_TIME)`. -/
def rearmSilenceTimer (s : Session) (now : Int) : Session :=
  { s with
      connectionState :=
        { s.connectionState with
            lastSpeechTimestamp := now
            silenceTimer := some s.nextTimer }
      timers :=
        (match s.connectionState.silenceTimer with
          | some h => clearTimeout s.timers h
          | none => s.timers) ++ [(s.nextTimer, now + MAX_SILENCE_TIME)]
      nextTimer := s.nextTimer + 1 }

/-- The handler of `ws.on('message')`, with its `try`/`catch`; `now` is `Date.now()`. -/
def onMessage (s : Session) (data : Inbound) (now : Int) : Session × List Output :=
  match data with
  | .unparseable => (s, [])
  | .start none => (s, [])
  | .start (some (streamSid, callSid)) =>
    ({ s with
        connectionState :=
          { s.connectionState with streamSid := some streamSid, callSid := some callSid } },
     [.greeting 0])
  | .media (some payload) => (rearmSilenceTimer s now, [.send (some payload)])
  | .media none => (rearmSilenceTimer s now, [])
  | .mediaWithoutPayload => (rearmSilenceTimer s now, [.send none])
  | .mark _ => (s, [])
  | .stop => cleanupConnection s
  | .other => (s, [])

/-- What can happen to a session. -/
inductive Input
  | message (data : Inbound) (now : Int)
  | utterance (text : JsString) (now : Int) (choice : Fin 3)
  | transcription (text : JsString)
  | silence (handle : Nat)
  | settled (resolved : Bool)
  | wsError
  | wsClose
  deriving DecidableEq, Repr

/-- One handler run to its end or to its `await`.  A timer fires only while armed, and is
disarmed by firing. -/
def step (s : Session) : Input → Session × List Output
  | .message data now => onMessage s data now
  | .utterance text now choice => onUtterance s text now choice
  | .transcription text => transcriptionBegin s text
  | .silence handle =>
    if s.timers.any (fun t => t.1 = handle) then
      handleSilence { s with timers := clearTimeout s.timers handle }
    else (s, [])
  | .settled resolved => (transcriptionEnd s resolved, [])
  | .wsError => cleanupConnection s
  | .wsClose => cleanupConnection s

/-- The session and the outputs after a sequence of inputs. -/
def run (s : Session) : List Input → Session × List Output
  | [] => (s, [])
  | i :: is =>
    let r := step s i
    let rest := run r.1 is
    (rest.1, r.2 ++ rest.2)

/-- The flag `processingResponse` is set exactly while one call is in flight. -/
def GateHolds (s : Session) : Prop :=
  s.inFlight = if s.connectionState.processingResponse then 1 else 0

/-- The code unit right before the position reached after `pre`, `prev` being the one before
`pre`. -/
def lastBefore (prev : Option Nat) (pre : JsString) : Option Nat :=
  match pre.getLast? with
  | some c => some c
  | none => prev

/-- `z` is a 5-digit code in `text`: five digits, with no word character right before and
none right after. -/
def ZipCodeIn (text z : JsString) : Prop :=
  ∃ pre post, text = pre ++ z ++ post ∧ z.length = 5 ∧ (∀ d ∈ z, isDigit d = true)
    ∧ (lastBefore none pre).any isWordChar = false ∧ post.head?.any isWordChar = false

/-- The lookups of contractors in a log. -/
def lookups : List Event → List (JsString × ServiceType)
  | [] => []
  | .lookup z t :: es => (z, t) :: lookups es
  | _ :: es => lookups es

/-- What `this.pool.query(query, [zipCode, serviceType])` settles to in
`DbService.findAvailableContractor`: a first row, with its `name` and `company_name`, no
row, or a rejection. -/
inductive QueryResult
  | row (name company_name : JsString)
  | noRow
  | fails
  deriving DecidableEq, Repr

/-- The object `DbService.findAvailableContractor` resolves to; `contractor` holds the
`name` and `company_name` of `result.rows[0]`, `none` is `null`. -/
structure ContractorLookup where
  found : Bool
  contractor : Option (JsString × JsString)
  message : JsString
  deriving DecidableEq, Repr

/-- `DbService.findAvailableContractor(zipCode, serviceType)` of `db-service.js`, given what
its query settles to: the `try` returns the object with the message of the lookup, the
`catch` returns the one with the message of the failure. -/
def DbService.findAvailableContractor (serviceType : ServiceType) :
    QueryResult → ContractorLookup
  | .row name company_name =>
    { found := true
      contractor := some (name, company_name)
      message := js "Great! I found " ++ name ++ js " who can help with your "
        ++ serviceType.toJs ++ js " needs. Would you like me to check their availability?" }
  | .noRow =>
    { found := false
      contractor := none
      message := js "I apologize, but I don't have any " ++ serviceType.toJs
        ++ js " professionals in your area right now. Would you like me to take your number for a callback?" }
  | .fails =>
    { found := false
      contractor := none
      message := js "I'm having trouble checking availability right now. Would you like me to take your number for a callback?" }

/-- What `handleZipCode` reads of the object the lookup resolves to: `result.found` and,
when it is true, `result.contractor.name` and `result.contractor.company_name` (a read
that throws on a `null` contractor).  The member `message` is not read. -/
def ContractorLookup.read (r : ContractorLookup) : LookupResult :=
  if r.found then
    match r.contractor with
    | some (name, company_name) => .found name company_name
    | none => .throws
  else .notFound

/-- Collaborators whose lookup is the one of `db-service.js`, its query finding the same
contractor for every code and category; every request to the model throws. -/
def annEnv : Collaborators :=
  { toLowerCase := asciiToLowerCase
    findAvailableContractor := fun _ serviceType =>
      (DbService.findAvailableContractor serviceType
        (.row (js "Ann") (js "Pipes Inc"))).read
    create := fun _ => .throws }

/-- Collaborators for the scenarios of the specification: every lookup finds the same
contractor and every request to the model throws. -/
def scenarioEnv : Collaborators :=
  { toLowerCase := asciiToLowerCase
    findAvailableContractor := fun _ _ => .found (js "Ann") (js "Pipes Inc")
    create := fun _ => .throws }

/-- A call whose model answers with an offer to schedule. -/
def offerCall : Call :=
  { env :=
      { toLowerCase := asciiToLowerCase
        findAvailableContractor := fun _ _ => .notFound
        create := fun _ =>
          .stream { chunks := [js "Would you like to schedule an appointment?"], ending := .done } }
    text := js "hello"
    interactionCount := 0
    role := js "user"
    name := js "user" }

/-- One alternative of `/\b(a1|a2|...)\b/i` tried at one position: `prev` is the code unit
before the position, `rest` the text from it on. -/
def wordAt (prev : Option Nat) (rest alt : JsString) : Bool :=
  (alt.map canonicalize).isPrefixOf (rest.map canonicalize)
    && ((prev.any isWordChar) != (rest.head?.any isWordChar))
    && (((rest.take alt.length).getLast?.any isWordChar)
          != ((rest.drop alt.length).head?.any isWordChar))

/-- The search of `/\b(a1|a2|...)\b/i` from a position on. -/
def wholeWordFrom (alternatives : List JsString) (prev : Option Nat) : JsString → Bool
  | [] => false
  | c :: cs =>
    alternatives.any (wordAt prev (c :: cs)) || wholeWordFrom alternatives (some c) cs

/-- The pattern as the specification words it, `/\b(a1|a2|...)\b/i`: some alternative occurs
as a whole word, letters compared without case. -/
def matchWholeWordIgnoreCase (alternatives : List JsString) (text : JsString) : Bool :=
  wholeWordFrom alternatives none text

/-- `w` occurs in `text` up to the case of letters. -/
def OccursIgnoreCase (w text : JsString) : Prop :=
  ∃ u, u <:+: text ∧ u.map canonicalize = w.map canonicalize

/-- The place of a category in the order the categories are tried. -/
def ServiceType.rank : ServiceType → Nat
  | .plumbing => 0
  | .electrical => 1
  | .hvac => 2
  | .general => 3

/-- A keyword of category `t` occurs in `lowered`. -/
def Mentions (lowered : JsString) (t : ServiceType) : Prop :=
  ∃ keywords, (t, keywords) ∈ serviceKeywords ∧ ∃ k ∈ keywords, k <:+: lowered

/-- The utterance of the scenario of the specification. -/
def toiletUtterance : JsString := js "my toilet is clogged and leaking for two days"

/-- The state of the service when the `try` block is entered: after `updateUserContext`
and the category step. -/
def atTry (env : Collaborators) (s : GptService) (text role name : JsString) : GptService :=
  resolveServiceType env (updateUserContext s name role text) text

/-- The call reaches the `try` block: neither the zip-code fast path nor a scheduling
short-circuit applies. -/
def ReachesTry (s : GptService) (text role name : JsString) : Prop :=
  ¬ ((zipMatch text).isSome = true ∧ s.serviceType.isSome = true
      ∧ s.detailsCollected = true)
    ∧ ¬ (includes (lastMsg (updateUserContext s name role text))
          (js "schedule an appointment") = true
        ∧ (matchAlternationIgnoreCase yesPattern text = true
          ∨ matchAlternationIgnoreCase noPattern text = true))

instance ReachesTry.decidable (s : GptService) (text role name : JsString) :
    Decidable (ReachesTry s text role name) := by
  unfold ReachesTry; infer_instance

/-- The stream of the scenario: a question in three chunks, then more text. -/
def questionStream : TokenStream :=
  { chunks := [js "Is it ", js "", js "overflowing", js "?", js " Tell me more."]
    ending := .done }

/-- The first call of the scenario of the specification. -/
def clogCall : Call :=
  { env :=
      { toLowerCase := asciiToLowerCase
        findAvailableContractor := fun _ _ => .notFound
        create := fun _ => .stream questionStream }
    text := toiletUtterance
    interactionCount := 0
    role := js "user"
    name := js "user" }

/-- Token `j` is the first after which the accumulated text contains a question mark. -/
def FirstQuestion (chunks : List JsString) (j : Nat) : Prop :=
  j < chunks.length ∧ includes (chunks.take (j + 1)).flatten (js "?") = true
    ∧ ∀ i < j, includes (chunks.take (i + 1)).flatten (js "?") = false

instance FirstQuestion.decidable (chunks : List JsString) (j : Nat) :
    Decidable (FirstQuestion chunks j) := by
  unfold FirstQuestion; infer_instance

/-- What a model-driven branch does with the stream `tokens` it got for `messages`, `extra`
being what the branch emits after the loop, from a given fragment index on.  If some token
is the first after which the accumulated text contains a question mark, the chunks read
are the ones up to it, one reply follows with the text accumulated so far, and that text
is the content of the one message appended to the history, with role `assistant` and no
name.  Otherwise every chunk is read and no reply comes from the stream: if the stream ends
normally the message appended holds the whole text, and if it fails the branch throws with
the history unchanged. -/
def TruncatedAtFirstQuestion (s : GptService) (interactionCount : Nat) (tokens : TokenStream)
    (messages : List Message) (extra : Nat → List Event) (r : Run) : Prop :=
  (∀ j, FirstQuestion tokens.chunks j →
      r.log = .request messages :: (tokens.chunks.take (j + 1)).map Event.chunk
          ++ [.gptreply { partialResponseIndex := s.partialResponseIndex
                          partialResponse := (tokens.chunks.take (j + 1)).flatten }
                interactionCount]
          ++ extra (s.partialResponseIndex + 1)
        ∧ r.svc.userContext
          = s.userContext ++ [{ role := js "assistant", name := none
                                content := (tokens.chunks.take (j + 1)).flatten }]
        ∧ r.threw = false)
    ∧ ((¬ ∃ j, FirstQuestion tokens.chunks j) → tokens.ending = .done →
        r.log = .request messages :: tokens.chunks.map Event.chunk
            ++ extra s.partialResponseIndex
          ∧ r.svc.userContext
            = s.userContext ++ [{ role := js "assistant", name := none
                                  content := tokens.chunks.flatten }]
          ∧ r.threw = false)
    ∧ ((¬ ∃ j, FirstQuestion tokens.chunks j) → tokens.ending = .throws →
        r.log = .request messages :: tokens.chunks.map Event.chunk
          ∧ r.svc.userContext = s.userContext
          ∧ r.threw = true)

/-- The location-code prompt of the follow-up branch: emitted with index `index` when the
history has 4 or more turns. -/
def zipPromptEvents (s : GptService) (interactionCount index : Nat) : List Event :=
  if s.userContext.length ≥ 4 then
    [.gptreply { partialResponseIndex := index, partialResponse := zipPrompt } interactionCount]
  else []

/-- The model fails before a reply: the request throws, or the stream fails and no token
makes the accumulated text contain a question mark. -/
def FailsBeforeReply : CreateResult → Prop
  | .throws => True
  | .stream tokens => tokens.ending = .throws ∧ ¬ ∃ j, FirstQuestion tokens.chunks j

/-- What a failed model-driven branch leaves: the service with its flags and counter as
they were, a log without a reply, and the exception. -/
def FailedRun (s : GptService) (r : Run) : Prop :=
  r.threw = true ∧ replies r.log = [] ∧ r.svc.partialResponseIndex = s.partialResponseIndex
    ∧ r.svc.detailsCollected = s.detailsCollected

/-- The second call of the scenario. -/
def sinceCall : Call :=
  { clogCall with text := js "since monday", interactionCount := 1 }

/-- The third call of the scenario: the zip code, the lookup finding a contractor. -/
def zipCall : Call :=
  { env := scenarioEnv
    text := js "94102"
    interactionCount := 2
    role := js "user"
    name := js "user" }

/-- The run appends at most one turn to the history of `s` and changes none. -/
def AppendsAtMostOne (s : GptService) (r : Run) : Prop :=
  ∃ rest, r.svc.userContext = s.userContext ++ rest ∧ rest.length ≤ 1

/-- The output is an acknowledgment. -/
def Output.isAck : Output → Bool
  | .ack _ _ _ => true
  | _ => false

/-- The output goes with a reset of `currentUtteranceAcks`: the finalization of an utterance
by `handleSilence` or the start of a completion. -/
def Output.isReset : Output → Bool
  | .transcription _ => true
  | .completion _ _ => true
  | _ => false

/-- The times of the acknowledgments of a run, in order. -/
def ackTimes : List Output → List Int
  | [] => []
  | .ack _ _ now :: os => now :: ackTimes os
  | _ :: os => ackTimes os

/-- The acknowledgments and the resets of a run, in order. -/
def marks (outs : List Output) : List Output :=
  outs.filter (fun o => o.isAck || o.isReset)

/-- Two outputs that are not both acknowledgments. -/
def NotBothAcks (x y : Output) : Prop := ¬ (x.isAck = true ∧ y.isAck = true)

/-- The invariant that links a session to the outputs so far: the counter is 0 or 1; among
the acknowledgments and resets no two acknowledgments are adjacent; each acknowledgment
comes more than the cooldown after the one before; the time recorded is the time of the
last acknowledgment; and while the counter is 0 the last of the acknowledgments and resets
is not an acknowledgment. -/
def AckInvariant (s : Session) (outs : List Output) : Prop :=
  s.connectionState.currentUtteranceAcks ≤ 1
    ∧ List.Chain' NotBothAcks (marks outs)
    ∧ List.Chain' (fun t1 t2 => ACK_COOLDOWN < t2 - t1) (ackTimes outs)
    ∧ (∀ t ∈ (ackTimes outs).getLast?, s.connectionState.lastAckTimestamp = t)
    ∧ (s.connectionState.currentUtteranceAcks = 0 →
        ∀ o ∈ (marks outs).getLast?, o.isAck = false)

/-- A frame, a partial utterance that is acknowledged, a longer one that is not, and the
silence that finalizes the utterance and starts a completion. -/
def firstUtterance : List Input :=
  [.message (.media (some (js "frame"))) 900,
   .utterance (js "hello") 1000 0,
   .utterance (js "hello there") 1400 1,
   .silence 0]

/-- What one handler does about acknowledgments.  Either it emits one, and then no
completion was in flight, the counter was 0 and becomes 1, the cooldown had elapsed and the
time is recorded; or it emits none, leaves the recorded time, and leaves the counter unless
it resets it to 0 along with a finalization or a completion start. -/
def AckStep (s : Session) (i : Input) : Prop :=
  (∃ text now,
      (step s i).2 = [.ack text s.connectionState.interactionCount now]
        ∧ s.connectionState.processingResponse = false
        ∧ s.connectionState.currentUtteranceAcks = 0
        ∧ (step s i).1.connectionState.currentUtteranceAcks = 1
        ∧ ACK_COOLDOWN < now - s.connectionState.lastAckTimestamp
        ∧ (step s i).1.connectionState.lastAckTimestamp = now)
    ∨ ((∀ o ∈ (step s i).2, o.isAck = false)
        ∧ (step s i).1.connectionState.lastAckTimestamp = s.connectionState.lastAckTimestamp
        ∧ ((step s i).1.connectionState.currentUtteranceAcks
              = s.connectionState.currentUtteranceAcks
            ∨ ((step s i).1.connectionState.currentUtteranceAcks = 0
                ∧ ∃ o ∈ (step s i).2, o.isReset = true)))

/-- A frame that arms the silence timer, a partial utterance, and then the close of the
session by `close`. -/
def closedWhileSpeaking (close : Input) : List Input :=
  [.message (.media (some (js "frame"))) 900, .utterance (js "hello") 1000 0, close]

/-- After `closedWhileSpeaking close` the session is out of the registry and terminated,
the timer armed by the frame is still pending with its deadline, and when it fires
`handleSilence` emits the finalized utterance and a completion starts. -/
def TimerSurvives (close : Input) : Prop :=
  (run (Session.connect 0) (closedWhileSpeaking close)).1.registered = false
    ∧ (run (Session.connect 0) (closedWhileSpeaking close)).1.terminated = true
    ∧ (run (Session.connect 0) (closedWhileSpeaking close)).1.timers = [(0, 1700)]
    ∧ (step (run (Session.connect 0) (closedWhileSpeaking close)).1 (.silence 0)).2
        = [.transcription (js "hello"), .completion (js "hello") 0]

instance TimerSurvives.decidable (close : Input) : Decidable (TimerSurvives close) := by
  unfold TimerSurvives; infer_instance

/-- The `try` block of the message handler: the session and outputs reached when it is
left, and whether it is left by an exception (`JSON.parse` rejecting the data, or a member
read on a missing `msg.start`, `msg.media` or `msg.mark`). -/
def messageTry (s : Session) (data : Inbound) (now : Int) : (Session × List Output) × Bool :=
  match data with
  | .unparseable => ((s, []), true)
  | .start none => ((s, []), true)
  | .start (some (streamSid, callSid)) =>
    (({ s with
          connectionState :=
            { s.connectionState with streamSid := some streamSid, callSid := some callSid } },
      [.greeting 0]), false)
  | .media (some payload) => ((rearmSilenceTimer s now, [.send (some payload)]), false)
  | .media none => ((rearmSilenceTimer s now, []), true)
  | .mediaWithoutPayload => ((rearmSilenceTimer s now, [.send none]), false)
  | .mark present => ((s, []), !present)
  | .stop => (cleanupConnection s, false)
  | .other => ((s, []), false)

/-- In a session the only timer that can be armed is the one `connectionState.silenceTimer`
holds, and the handle of the next timer is a new one. -/
def TimerInvariant (s : Session) : Prop :=
  (∀ t ∈ s.timers, s.connectionState.silenceTimer = some t.1)
    ∧ ∀ h, s.connectionState.silenceTimer = some h → h < s.nextTimer

/-- What is used of `toLowerCase`: a stretch of ASCII code units of the text comes out
lower-cased and in one piece. -/
def LowersAsciiInPlace (toLowerCase : JsString → JsString) : Prop :=
  ∀ text u, u <:+: text → (∀ c ∈ u, c < 128) → asciiToLowerCase u <:+: toLowerCase text

/-- The result is one of plumbing, electrical, hvac. -/
def BeforeGeneral (r : Option ServiceType) : Prop :=
  r = some .plumbing ∨ r = some .electrical ∨ r = some .hvac

/-! ## Properties -/

theorem replies_append (l1 l2 : List Event) : replies (l1 ++ l2) = replies l1 ++ replies l2 := by
  induction l1 with
  | nil => rfl
  | cons e es ih => cases e <;> simp [replies, ih]

theorem numbered_nil (i : Nat) : Numbered i [] i := by simp [Numbered, replies]

theorem numbered_append {i j k : Nat} {l1 l2 : List Event}
    (h1 : Numbered i l1 j) (h2 : Numbered j l2 k) : Numbered i (l1 ++ l2) k := by
  obtain ⟨a1, b1⟩ := h1
  obtain ⟨a2, b2⟩ := h2
  refine ⟨?_, ?_⟩
  · rw [replies_append, List.map_append, List.length_append, a1, a2, b1,
      List.range'_append_1, Nat.add_comm]
  · rw [replies_append, List.length_append]; omega

theorem numbered_reply (i ic : Nat) (t : JsString) :
    Numbered i [.gptreply { partialResponseIndex := i, partialResponse := t } ic] (i + 1) := by
  simp [Numbered, replies]

theorem numbered_request (i : Nat) (m : List Message) : Numbered i [.request m] i := by
  simp [Numbered, replies]

theorem numbered_chunk (i : Nat) (c : JsString) : Numbered i [.chunk c] i := by
  simp [Numbered, replies]

theorem numbered_lookup (i : Nat) (z : JsString) (t : ServiceType) :
    Numbered i [.lookup z t] i := by
  simp [Numbered, replies]

theorem numbered_cons {i j k : Nat} {e : Event} {l : List Event}
    (h1 : Numbered i [e] j) (h2 : Numbered j l k) : Numbered i (e :: l) k :=
  numbered_append h1 h2

theorem streamLoop_numbered (ic i : Nat) (e : StreamEnd) (chunks : List JsString) :
    ∀ c p : JsString, Numbered i (streamLoop ic i e chunks c p).log
      (streamLoop ic i e chunks c p).index := by
  induction chunks with
  | nil => intro c p; simp [streamLoop, numbered_nil]
  | cons content rest ih =>
    intro c p
    unfold streamLoop
    split
    · split
      · simpa using numbered_cons (numbered_chunk i content) (numbered_reply i ic _)
      · simpa using numbered_cons (numbered_chunk i content) (ih _ _)
    · simpa using numbered_cons (numbered_chunk i content) (ih _ _)

theorem emitReply_numbered (s : GptService) (t : JsString) (ic : Nat) :
    Numbered s.partialResponseIndex [(emitReply s t ic).2]
      (emitReply s t ic).1.partialResponseIndex := by
  simpa [emitReply] using numbered_reply s.partialResponseIndex ic t

theorem followUpBranch_numbered (env : Collaborators) (s : GptService) (ic : Nat) :
    Numbered s.partialResponseIndex (followUpBranch env s ic).log
      (followUpBranch env s ic).svc.partialResponseIndex := by
  cases hc : env.create (s.userContext ++ [followUpInstruction]) with
  | throws => simpa [followUpBranch, hc] using numbered_request _ _
  | stream tokens =>
    have hl := streamLoop_numbered ic s.partialResponseIndex tokens.ending tokens.chunks [] []
    have h1 := numbered_cons (numbered_request _ (s.userContext ++ [followUpInstruction])) hl
    have h2 := numbered_append h1 (numbered_reply _ ic zipPrompt)
    simp only [followUpBranch, hc]
    split
    · exact h1
    · split
      · simpa [emitReply] using h2
      · exact h1

theorem initialBranch_numbered (env : Collaborators) (s : GptService) (ic : Nat) :
    Numbered s.partialResponseIndex (initialBranch env s ic).log
      (initialBranch env s ic).svc.partialResponseIndex := by
  cases hc : env.create (s.userContext ++ [initialInstruction]) with
  | throws => simpa [initialBranch, hc] using numbered_request _ _
  | stream tokens =>
    have hl := streamLoop_numbered ic s.partialResponseIndex tokens.ending tokens.chunks [] []
    have h1 := numbered_cons (numbered_request _ (s.userContext ++ [initialInstruction])) hl
    simp only [initialBranch, hc]
    split
    · exact h1
    · exact h1

theorem tryBlock_numbered (env : Collaborators) (s : GptService) (zip : Option JsString)
    (ic : Nat) :
    Numbered s.partialResponseIndex (tryBlock env s zip ic).log
      (tryBlock env s zip ic).svc.partialResponseIndex := by
  unfold tryBlock
  split
  · exact followUpBranch_numbered env s ic
  · split
    · exact emitReply_numbered s zipPrompt ic
    · exact initialBranch_numbered env s ic

theorem catchBlock_numbered (i : Nat) (r : Run) (ic : Nat)
    (h : Numbered i r.log r.svc.partialResponseIndex) :
    Numbered i (catchBlock r ic).log (catchBlock r ic).svc.partialResponseIndex := by
  unfold catchBlock
  split
  · exact numbered_append h (emitReply_numbered r.svc retryPrompt ic)
  · exact h

theorem resolveServiceType_index (env : Collaborators) (s : GptService) (text : JsString) :
    (resolveServiceType env s text).partialResponseIndex = s.partialResponseIndex := by
  unfold resolveServiceType; split <;> rfl

theorem completionRest_numbered (env : Collaborators) (s : GptService) (text : JsString)
    (ic : Nat) :
    Numbered s.partialResponseIndex (completionRest env s text ic).log
      (completionRest env s text ic).svc.partialResponseIndex := by
  unfold completionRest
  split
  · exact emitReply_numbered s _ ic
  · split
    · exact emitReply_numbered s _ ic
    · apply catchBlock_numbered
      have := tryBlock_numbered env (resolveServiceType env s text) (zipMatch text) ic
      rwa [resolveServiceType_index] at this

theorem updateUserContext_index (s : GptService) (name role text : JsString) :
    (updateUserContext s name role text).partialResponseIndex = s.partialResponseIndex := rfl

theorem handleZipCode_numbered (env : Collaborators) (s : GptService) (z : JsString) (i : Nat) :
    Numbered i (handleZipCode env s z).2 i := by
  unfold handleZipCode
  split
  · exact numbered_nil i
  · exact numbered_lookup i _ _

theorem zipFastPath_numbered (env : Collaborators) (s : GptService) (z : JsString)
    (ic : Nat) :
    Numbered s.partialResponseIndex (zipFastPath env s z ic).log
      (zipFastPath env s z ic).svc.partialResponseIndex :=
  numbered_append (handleZipCode_numbered env s z s.partialResponseIndex)
    (emitReply_numbered s _ ic)

theorem completionBody_numbered (env : Collaborators) (s : GptService) (text : JsString)
    (ic : Nat) :
    Numbered s.partialResponseIndex (completionBody env s text ic).log
      (completionBody env s text ic).svc.partialResponseIndex := by
  unfold completionBody
  split
  · split
    · exact zipFastPath_numbered env s _ ic
    · exact completionRest_numbered env s text ic
  · exact completionRest_numbered env s text ic

theorem completion_numbered (env : Collaborators) (s : GptService) (text : JsString)
    (ic : Nat) (role name : JsString) :
    Numbered s.partialResponseIndex (completion env s text ic role name).log
      (completion env s text ic role name).svc.partialResponseIndex := by
  have := completionBody_numbered env (updateUserContext s name role text) text ic
  rwa [updateUserContext_index] at this

theorem runCalls_numbered (calls : List Call) :
    ∀ s : GptService, Numbered s.partialResponseIndex (runCalls s calls).2
      (runCalls s calls).1.partialResponseIndex := by
  induction calls with
  | nil => intro s; exact numbered_nil _
  | cons c cs ih =>
    intro s
    exact numbered_append (completion_numbered c.env s c.text c.interactionCount c.role c.name)
      (ih _)

theorem tagged_nil (ic : Nat) : Tagged ic [] := by simp [Tagged, replies]

theorem tagged_append {ic : Nat} {l1 l2 : List Event} (h1 : Tagged ic l1) (h2 : Tagged ic l2) :
    Tagged ic (l1 ++ l2) := by
  intro r hr
  rw [replies_append, List.mem_append] at hr
  exact hr.elim (h1 r) (h2 r)

theorem tagged_reply (ic : Nat) (g : GptReply) : Tagged ic [.gptreply g ic] := by
  simp [Tagged, replies]

theorem tagged_request (ic : Nat) (m : List Message) : Tagged ic [.request m] := by
  simp [Tagged, replies]

theorem tagged_chunk (ic : Nat) (c : JsString) : Tagged ic [.chunk c] := by
  simp [Tagged, replies]

theorem tagged_lookup (ic : Nat) (z : JsString) (t : ServiceType) :
    Tagged ic [.lookup z t] := by
  simp [Tagged, replies]

theorem tagged_cons {ic : Nat} {e : Event} {l : List Event}
    (h1 : Tagged ic [e]) (h2 : Tagged ic l) : Tagged ic (e :: l) :=
  tagged_append h1 h2

theorem streamLoop_tagged (ic i : Nat) (e : StreamEnd) (chunks : List JsString) :
    ∀ c p : JsString, Tagged ic (streamLoop ic i e chunks c p).log := by
  induction chunks with
  | nil => intro c p; simp [streamLoop, tagged_nil]
  | cons content rest ih =>
    intro c p
    unfold streamLoop
    split
    · split
      · exact tagged_cons (tagged_chunk ic content) (tagged_reply ic _)
      · exact tagged_cons (tagged_chunk ic content) (ih _ _)
    · exact tagged_cons (tagged_chunk ic content) (ih _ _)

theorem emitReply_tagged (s : GptService) (t : JsString) (ic : Nat) :
    Tagged ic [(emitReply s t ic).2] :=
  tagged_reply ic _

theorem followUpBranch_tagged (env : Collaborators) (s : GptService) (ic : Nat) :
    Tagged ic (followUpBranch env s ic).log := by
  cases hc : env.create (s.userContext ++ [followUpInstruction]) with
  | throws => simpa [followUpBranch, hc] using tagged_request _ _
  | stream tokens =>
    have hl := streamLoop_tagged ic s.partialResponseIndex tokens.ending tokens.chunks [] []
    have h1 := tagged_cons (tagged_request ic (s.userContext ++ [followUpInstruction])) hl
    simp only [followUpBranch, hc]
    split
    · exact h1
    · split
      · exact tagged_append h1 (emitReply_tagged _ _ ic)
      · exact h1

theorem initialBranch_tagged (env : Collaborators) (s : GptService) (ic : Nat) :
    Tagged ic (initialBranch env s ic).log := by
  cases hc : env.create (s.userContext ++ [initialInstruction]) with
  | throws => simpa [initialBranch, hc] using tagged_request _ _
  | stream tokens =>
    have hl := streamLoop_tagged ic s.partialResponseIndex tokens.ending tokens.chunks [] []
    have h1 := tagged_cons (tagged_request ic (s.userContext ++ [initialInstruction])) hl
    simp only [initialBranch, hc]
    split
    · exact h1
    · exact h1

theorem tryBlock_tagged (env : Collaborators) (s : GptService) (zip : Option JsString)
    (ic : Nat) : Tagged ic (tryBlock env s zip ic).log := by
  unfold tryBlock
  split
  · exact followUpBranch_tagged env s ic
  · split
    · exact emitReply_tagged s zipPrompt ic
    · exact initialBranch_tagged env s ic

theorem completionRest_tagged (env : Collaborators) (s : GptService) (text : JsString)
    (ic : Nat) : Tagged ic (completionRest env s text ic).log := by
  unfold completionRest
  split
  · exact emitReply_tagged s _ ic
  · split
    · exact emitReply_tagged s _ ic
    · unfold catchBlock
      split
      · exact tagged_append (tryBlock_tagged _ _ _ ic) (emitReply_tagged _ _ ic)
      · exact tryBlock_tagged _ _ _ ic

theorem handleZipCode_tagged (env : Collaborators) (s : GptService) (z : JsString) (ic : Nat) :
    Tagged ic (handleZipCode env s z).2 := by
  unfold handleZipCode
  split
  · exact tagged_nil ic
  · exact tagged_lookup ic _ _

theorem completion_tagged (env : Collaborators) (s : GptService) (text : JsString)
    (ic : Nat) (role name : JsString) :
    Tagged ic (completion env s text ic role name).log := by
  unfold completion completionBody
  split
  · split
    · exact tagged_append (handleZipCode_tagged env _ _ ic) (emitReply_tagged _ _ ic)
    · exact completionRest_tagged env _ text ic
  · exact completionRest_tagged env _ text ic

/-- C1. On a freshly constructed service, whatever the calls of `completion` made one after
the other and whatever the collaborators answer, the fragment indices of the emitted
replies are `0, 1, ..., k-1` in emission order; and in every state, each reply emitted by a
call carries the interaction index passed to that call. -/
theorem C1_reply_indices_count_from_zero (calls : List Call) :
    (replies (runCalls GptService.new calls).2).map (fun r => r.1.partialResponseIndex)
        = List.range (replies (runCalls GptService.new calls).2).length
      ∧ ∀ (s : GptService) (c : Call), ∀ r ∈ replies (c.run s).log,
          r.2 = c.interactionCount := by
  refine ⟨?_, fun s c => completion_tagged c.env s c.text c.interactionCount c.role c.name⟩
  have h := (runCalls_numbered calls GptService.new).1
  rw [h, List.range_eq_range']
  rfl

theorem run_invariant (P : Session → List Output → Prop)
    (hstep : ∀ s outs i, P s outs → P (step s i).1 (outs ++ (step s i).2)) :
    ∀ (inputs : List Input) (s : Session) (outs : List Output),
      P s outs → P (run s inputs).1 (outs ++ (run s inputs).2) := by
  intro inputs
  induction inputs with
  | nil => intro s outs h; simpa [run] using h
  | cons i is ih =>
    intro s outs h
    have := ih (step s i).1 (outs ++ (step s i).2) (hstep s outs i h)
    simpa [run, List.append_assoc] using this

theorem transcriptionBegin_gate (s : Session) (text : JsString) (h : GateHolds s) :
    GateHolds (transcriptionBegin s text).1 := by
  unfold transcriptionBegin
  split
  · exact h
  · rename_i hg
    simp only [not_or, Bool.not_eq_true] at hg
    simp [GateHolds, hg.2.1] at h ⊢
    exact h

theorem transcriptionEnd_gate (s : Session) (resolved : Bool) (h : GateHolds s) :
    GateHolds (transcriptionEnd s resolved) := by
  unfold transcriptionEnd
  split
  · exact h
  · rename_i hg
    unfold GateHolds at h ⊢
    cases hp : s.connectionState.processingResponse <;> simp [hp] at h ⊢ <;> omega

theorem handleSilence_gate (s : Session) (h : GateHolds s) :
    GateHolds (handleSilence s).1 := by
  unfold handleSilence
  split
  · exact transcriptionBegin_gate s _ h
  · exact h

theorem onUtterance_gate (s : Session) (text : JsString) (now : Int) (choice : Fin 3)
    (h : GateHolds s) : GateHolds (onUtterance s text now choice).1 := by
  unfold onUtterance
  split
  · split <;> exact h
  · exact h

theorem cleanupConnection_gate (s : Session) (h : GateHolds s) :
    GateHolds (cleanupConnection s).1 := h

theorem onMessage_gate (s : Session) (data : Inbound) (now : Int) (h : GateHolds s) :
    GateHolds (onMessage s data now).1 := by
  unfold onMessage
  split <;> exact h

theorem step_gate (s : Session) (i : Input) (h : GateHolds s) : GateHolds (step s i).1 := by
  cases i with
  | message data now => exact onMessage_gate s data now h
  | utterance text now choice => exact onUtterance_gate s text now choice h
  | transcription text => exact transcriptionBegin_gate s text h
  | silence handle =>
    simp only [step]
    split
    · exact handleSilence_gate _ h
    · exact h
  | settled resolved => exact transcriptionEnd_gate s resolved h
  | wsError => exact h
  | wsClose => exact h

theorem run_gate (now : Int) (inputs : List Input) :
    GateHolds (run (Session.connect now) inputs).1 :=
  run_invariant (fun s _ => GateHolds s) (fun s _ i h => step_gate s i h) inputs
    (Session.connect now) [] rfl

/-- C2. After any sequence of inputs on a connection at most one call of
`gptService.completion` is in flight (and the flag `processingResponse` is set exactly
while one is); and a finalized utterance that arrives while the flag is set, or that is
empty or shorter than 3 code units, starts no completion and changes nothing: the result
of the handler is the same session and no output. -/
theorem C2_at_most_one_completion_in_flight (now : Int) (inputs : List Input) :
    (run (Session.connect now) inputs).1.inFlight ≤ 1
      ∧ ((run (Session.connect now) inputs).1.inFlight = 1
          ↔ (run (Session.connect now) inputs).1.connectionState.processingResponse = true)
      ∧ ∀ (s : Session) (text : JsString),
          s.connectionState.processingResponse = true ∨ text = [] ∨ text.length < 3 →
            transcriptionBegin s text = (s, []) := by
  have h := run_gate now inputs
  unfold GateHolds at h
  refine ⟨?_, ?_, ?_⟩
  · rw [h]; split <;> omega
  · rw [h]; cases (run (Session.connect now) inputs).1.connectionState.processingResponse <;> simp
  · intro s text hc
    unfold transcriptionBegin
    rw [if_pos]
    rcases hc with hc | hc | hc
    · exact Or.inr (Or.inl hc)
    · exact Or.inl hc
    · exact Or.inr (Or.inr hc)

/-- C2 at a concrete run: a finalized utterance, then a second one while the first is
in flight. -/
theorem C2_at_most_one_completion_in_flight_witness :
    (run (Session.connect 0) [.transcription (js "hello"), .transcription (js "again")]).1.inFlight
        = 1
      ∧ transcriptionBegin (run (Session.connect 0) [.transcription (js "hello")]).1 (js "again")
        = ((run (Session.connect 0) [.transcription (js "hello")]).1, []) :=
  ⟨by decide,
   (C2_at_most_one_completion_in_flight 0 [.transcription (js "hello")]).2.2 _ (js "again")
     (Or.inl (by decide))⟩

theorem lastBefore_cons (prev : Option Nat) (c : Nat) (pre : JsString) :
    lastBefore prev (c :: pre) = lastBefore (some c) pre := by
  cases pre with
  | nil => rfl
  | cons d ds =>
    have h : (d :: ds).getLast? = some ((d :: ds).getLast (List.cons_ne_nil d ds)) :=
      List.getLast?_eq_getLast _ _
    simp only [lastBefore, List.getLast?_cons_cons, h]

theorem zipAt_some {prev : Option Nat} {rest z : JsString} (h : zipAt prev rest = some z) :
    ∃ post, rest = z ++ post ∧ z.length = 5 ∧ (∀ d ∈ z, isDigit d = true)
      ∧ prev.any isWordChar = false ∧ post.head?.any isWordChar = false := by
  unfold zipAt at h
  split at h
  · rename_i d1 d2 d3 d4 d5 tail
    split at h
    · rename_i hc
      simp only [Bool.and_eq_true, Bool.not_eq_true', Option.some.injEq] at hc h
      subst h
      refine ⟨tail, rfl, rfl, ?_, hc.1.2, hc.2⟩
      intro d hd
      simp only [List.mem_cons, List.mem_singleton, List.not_mem_nil, or_false] at hd
      rcases hd with rfl | rfl | rfl | rfl | rfl
      · exact hc.1.1.1.1.1.1
      · exact hc.1.1.1.1.1.2
      · exact hc.1.1.1.1.2
      · exact hc.1.1.1.2
      · exact hc.1.1.2
    · cases h
  · cases h

theorem zipAt_of_code {prev : Option Nat} {z post : JsString} (hl : z.length = 5)
    (hd : ∀ d ∈ z, isDigit d = true) (hp : prev.any isWordChar = false)
    (hn : post.head?.any isWordChar = false) : zipAt prev (z ++ post) = some z := by
  match z, hl with
  | [d1, d2, d3, d4, d5], _ =>
    simp only [List.mem_cons, List.mem_singleton, List.not_mem_nil, or_false, forall_eq_or_imp,
      forall_eq] at hd
    simp [zipAt, hd, hp, hn]

theorem zipFrom_some (text : JsString) :
    ∀ (prev : Option Nat) (z : JsString), zipFrom prev text = some z →
      ∃ pre post, text = pre ++ z ++ post ∧ z.length = 5 ∧ (∀ d ∈ z, isDigit d = true)
        ∧ (lastBefore prev pre).any isWordChar = false ∧ post.head?.any isWordChar = false := by
  induction text with
  | nil => intro prev z h; cases h
  | cons c cs ih =>
    intro prev z h
    unfold zipFrom at h
    split at h
    · rename_i z' hz
      cases h
      obtain ⟨post, h1, h2, h3, h4, h5⟩ := zipAt_some hz
      exact ⟨[], post, by simpa using h1, h2, h3, h4, h5⟩
    · obtain ⟨pre, post, h1, h2, h3, h4, h5⟩ := ih (some c) z h
      refine ⟨c :: pre, post, by simp [h1], h2, h3, ?_, h5⟩
      rw [lastBefore_cons]; exact h4

theorem zipFrom_of_code (pre : JsString) :
    ∀ (prev : Option Nat) (z post : JsString), z.length = 5 → (∀ d ∈ z, isDigit d = true) →
      (lastBefore prev pre).any isWordChar = false → post.head?.any isWordChar = false →
      (zipFrom prev (pre ++ z ++ post)).isSome = true := by
  induction pre with
  | nil =>
    intro prev z post hl hd hp hn
    have hz := zipAt_of_code hl hd (show prev.any isWordChar = false from hp) hn
    match z, hl with
    | [d1, d2, d3, d4, d5], _ =>
      simp only [List.nil_append, List.cons_append] at hz ⊢
      unfold zipFrom
      rw [hz]; rfl
  | cons c cs ih =>
    intro prev z post hl hd hp hn
    rw [lastBefore_cons] at hp
    have := ih (some c) z post hl hd hp hn
    simp only [List.cons_append]
    unfold zipFrom
    split
    · rfl
    · simpa using this

theorem zipMatch_some_iff (text : JsString) :
    (∃ z, ZipCodeIn text z) ↔ ∃ z, zipMatch text = some z ∧ ZipCodeIn text z := by
  constructor
  · rintro ⟨z, pre, post, h1, h2, h3, h4, h5⟩
    have := zipFrom_of_code pre none z post h2 h3 h4 h5
    rw [← h1] at this
    obtain ⟨z', hz'⟩ := Option.isSome_iff_exists.mp this
    exact ⟨z', hz', zipFrom_some text none z' hz'⟩
  · rintro ⟨z, _, h⟩; exact ⟨z, h⟩

theorem updateUserContext_serviceType (s : GptService) (name role text : JsString) :
    (updateUserContext s name role text).serviceType = s.serviceType := rfl

theorem updateUserContext_detailsCollected (s : GptService) (name role text : JsString) :
    (updateUserContext s name role text).detailsCollected = s.detailsCollected := rfl

theorem completion_fast_path (env : Collaborators) (s : GptService) (text : JsString)
    (ic : Nat) (role name zip : JsString) (t : ServiceType)
    (hs : s.serviceType = some t) (hd : s.detailsCollected = true)
    (hz : zipMatch text = some zip) :
    completion env s text ic role name
      = zipFastPath env (updateUserContext s name role text) zip ic := by
  unfold completion completionBody
  rw [hz]
  simp [updateUserContext_serviceType, updateUserContext_detailsCollected, hs, hd]

theorem handleZipCode_resolved (env : Collaborators) (s : GptService) (zip : JsString)
    (t : ServiceType) (hs : s.serviceType = some t) :
    handleZipCode env s zip
      = (availabilityAnswer t (env.findAvailableContractor zip t), [.lookup zip t]) := by
  unfold handleZipCode
  simp only [hs]

set_option maxRecDepth 100000 in
/-- C3, as stated, fails: the reply is not the message the availability check returns.  In
the scenario of the specification, after the two calls that resolve plumbing and collect
the detail, "94102" makes the lookup of `db-service.js` find Ann of Pipes Inc and return
the message "Great! I found Ann ...", and the one reply `completion` emits is the text
`handleZipCode` composes itself, "Perfect! Ann from Pipes Inc ...". -/
theorem C3_counterexample_reply_is_not_the_lookup_message :
    (runCalls GptService.new [clogCall, sinceCall]).1.serviceType = some .plumbing
      ∧ (runCalls GptService.new [clogCall, sinceCall]).1.detailsCollected = true
      ∧ (DbService.findAvailableContractor .plumbing (.row (js "Ann") (js "Pipes Inc"))).message
          = js "Great! I found Ann who can help with your plumbing needs. Would you like me to check their availability?"
      ∧ replies (completion annEnv (runCalls GptService.new [clogCall, sinceCall]).1
            (js "94102") 2 (js "user") (js "user")).log
          = [({ partialResponseIndex := 3
                partialResponse := js "Perfect! Ann from Pipes Inc specializes in plumbing issues. Would you like to schedule an appointment?" }, 2)]
      ∧ js "Perfect! Ann from Pipes Inc specializes in plumbing issues. Would you like to schedule an appointment?"
          ≠ js "Great! I found Ann who can help with your plumbing needs. Would you like me to check their availability?" := by
  decide

/-- C3, amended. With a resolved category and sufficient detail, a text that contains a
5-digit code makes `completion` skip the model: no request is issued, the availability
check is made once, for the leftmost such code and the resolved category, and exactly one
reply is emitted.  Its text is composed by `handleZipCode` from the outcome of the check
and is not the message the check returns: "Perfect! <name> from <company> specializes in
<category> issues. Would you like to schedule an appointment?" when a contractor is found,
a fixed apology when none is found, a fixed request to try again when the check throws.
`serviceType` and `detailsCollected` are as before. -/
theorem C3_zip_code_fast_path (env : Collaborators) (s : GptService) (text : JsString)
    (ic : Nat) (role name : JsString) (t : ServiceType)
    (hs : s.serviceType = some t) (hd : s.detailsCollected = true)
    (hz : ∃ z, ZipCodeIn text z) :
    ∃ zip, zipMatch text = some zip ∧ ZipCodeIn text zip
      ∧ requests (completion env s text ic role name).log = []
      ∧ lookups (completion env s text ic role name).log = [(zip, t)]
      ∧ replies (completion env s text ic role name).log
          = [({ partialResponseIndex := s.partialResponseIndex
                partialResponse :=
                  match env.findAvailableContractor zip t with
                  | .found contractor company =>
                    js "Perfect! " ++ contractor ++ js " from " ++ company
                      ++ js " specializes in " ++ t.toJs
                      ++ js " issues. Would you like to schedule an appointment?"
                  | .notFound =>
                    js "I apologize, but I don't have any contractors available in your area right now."
                  | .throws =>
                    js "I'm having trouble checking availability. Could you try your zip code again?" },
              ic)]
      ∧ (completion env s text ic role name).svc.serviceType = s.serviceType
      ∧ (completion env s text ic role name).svc.detailsCollected = s.detailsCollected
      ∧ (completion env s text ic role name).threw = false := by
  obtain ⟨zip, hzip, hin⟩ := (zipMatch_some_iff text).mp hz
  refine ⟨zip, hzip, hin, ?_⟩
  rw [completion_fast_path env s text ic role name zip t hs hd hzip]
  have h1 := handleZipCode_resolved env (updateUserContext s name role text) zip t
    (by rw [updateUserContext_serviceType, hs])
  simp only [zipFastPath, emitReply, h1]
  refine ⟨?_, ?_, ?_, ?_, ?_, trivial⟩
  · simp [requests]
  · simp [lookups]
  · cases env.findAvailableContractor zip t <;>
      simp [replies, updateUserContext_index, availabilityAnswer]
  · exact updateUserContext_serviceType s name role text
  · exact updateUserContext_detailsCollected s name role text

set_option maxRecDepth 100000 in
/-- C3, amended, at the scenario of the specification: "94102" with category plumbing and
sufficient detail, the lookup of `db-service.js` finding Ann of Pipes Inc. -/
theorem C3_zip_code_fast_path_witness :
    requests (completion annEnv (runCalls GptService.new [clogCall, sinceCall]).1
          (js "94102") 2 (js "user") (js "user")).log = []
      ∧ lookups (completion annEnv (runCalls GptService.new [clogCall, sinceCall]).1
          (js "94102") 2 (js "user") (js "user")).log = [(js "94102", .plumbing)]
      ∧ replies (completion annEnv (runCalls GptService.new [clogCall, sinceCall]).1
          (js "94102") 2 (js "user") (js "user")).log
          = [({ partialResponseIndex := 3
                partialResponse := js "Perfect! Ann from Pipes Inc specializes in plumbing issues. Would you like to schedule an appointment?" }, 2)] := by
  obtain ⟨zip, hzip, _, h1, h2, h3, _⟩ := C3_zip_code_fast_path annEnv
    (runCalls GptService.new [clogCall, sinceCall]).1
    (js "94102") 2 (js "user") (js "user") .plumbing (by decide) (by decide)
    ⟨js "94102", [], [], by decide, by decide, by decide, by decide, by decide⟩
  have hz : zip = js "94102" := by
    have : zipMatch (js "94102") = some (js "94102") := by decide
    rw [this] at hzip
    exact (Option.some.inj hzip).symm
  subst hz
  refine ⟨h1, h2, ?_⟩
  rw [h3]
  decide

set_option maxRecDepth 100000 in
/-- C4, as stated, fails: after the assistant offered to schedule, "I know" contains none of
the affirmative or negative words as a whole word, and yet `completion` emits the fixed
decline message without asking the model, because `noPattern` has no word boundary and
"no" occurs inside "know". -/
theorem C4_counterexample_i_know :
    (runCalls GptService.new [offerCall]).1.userContext.getLast?
        = some (assistantTurn (js "Would you like to schedule an appointment?"))
      ∧ zipMatch (js "I know") = none
      ∧ matchWholeWordIgnoreCase yesPattern (js "I know") = false
      ∧ matchWholeWordIgnoreCase noPattern (js "I know") = false
      ∧ (completion offerCall.env (runCalls GptService.new [offerCall]).1 (js "I know") 1
            (js "user") (js "user")).log
          = [.gptreply { partialResponseIndex := 1, partialResponse := scheduleDecline } 1] := by
  decide

theorem includes_iff_occurs (hay needle : JsString) :
    includes hay needle = true ↔ needle <:+: hay := by
  induction hay with
  | nil =>
    simp only [includes, List.isPrefixOf_iff_prefix, List.prefix_nil, List.infix_nil]
  | cons c cs ih =>
    simp only [includes, Bool.or_eq_true, List.isPrefixOf_iff_prefix, ih, List.infix_cons_iff]

theorem occursIgnoreCase_iff (w text : JsString) :
    includes (text.map canonicalize) (w.map canonicalize) = true ↔ OccursIgnoreCase w text := by
  rw [includes_iff_occurs]
  constructor
  · rintro ⟨a, b, h⟩
    obtain ⟨l1, l2, rfl, h1, h2⟩ := List.map_eq_append_iff.mp h.symm
    obtain ⟨l3, l4, rfl, h3, h4⟩ := List.map_eq_append_iff.mp h1
    exact ⟨l4, ⟨l3, l2, rfl⟩, h4⟩
  · rintro ⟨u, ⟨a, b, rfl⟩, hu⟩
    exact ⟨a.map canonicalize, b.map canonicalize, by simp [hu]⟩

theorem matchAlternation_iff (alternatives : List JsString) (text : JsString) :
    matchAlternationIgnoreCase alternatives text = true
      ↔ ∃ w ∈ alternatives, OccursIgnoreCase w text := by
  simp only [matchAlternationIgnoreCase, List.any_eq_true, occursIgnoreCase_iff]

theorem lastMsg_updateUserContext (s : GptService) (name role text : JsString) (m : Message)
    (h : s.userContext.getLast? = some m) :
    lastMsg (updateUserContext s name role text) = m.content := by
  obtain ⟨ys, hys⟩ := List.getLast?_eq_some_iff.mp h
  have hd : ∀ x : Message,
      (ys ++ [m] ++ [x]).drop ((ys ++ [m] ++ [x]).length - 2) = [m, x] := by
    intro x
    have : (ys ++ [m] ++ [x]).length - 2 = ys.length := by simp
    rw [this, List.append_assoc, List.drop_left]
    rfl
  simp only [updateUserContext, lastMsg, hys, hd]

theorem completion_not_fast_path (env : Collaborators) (s : GptService) (text : JsString)
    (ic : Nat) (role name : JsString)
    (h : ¬ ((zipMatch text).isSome = true ∧ s.serviceType.isSome = true
      ∧ s.detailsCollected = true)) :
    completion env s text ic role name
      = completionRest env (updateUserContext s name role text) text ic := by
  unfold completion completionBody
  split
  · rename_i z hz
    rw [if_neg]
    rw [updateUserContext_serviceType, updateUserContext_detailsCollected]
    intro hc
    simp only [Bool.and_eq_true] at hc
    exact h ⟨by simp [hz], hc.1, hc.2⟩
  · rfl

/-- C4, amended. When the zip-code fast path does not apply and the turn right before the
new one contains "schedule an appointment": if one of yes, yeah, sure, okay, yep, yup,
definitely, absolutely, please occurs anywhere in the text, letters compared without case,
`completion` does nothing but emit the fixed follow-up; otherwise, if one of no, nah, nope,
not, don't occurs anywhere in it, nothing but emit the fixed decline; and if none of them
occurs, it goes on to the category step and the `try` block.  No word boundary is asked
for. -/
theorem C4_scheduling_reply_by_substring (env : Collaborators) (s : GptService)
    (text : JsString) (ic : Nat) (role name : JsString) (m : Message)
    (hfast : ¬ ((zipMatch text).isSome = true ∧ s.serviceType.isSome = true
      ∧ s.detailsCollected = true))
    (hlast : s.userContext.getLast? = some m)
    (hoffer : js "schedule an appointment" <:+: m.content) :
    ((∃ w ∈ yesPattern, OccursIgnoreCase w text) →
        (completion env s text ic role name).log
            = [.gptreply { partialResponseIndex := s.partialResponseIndex
                           partialResponse := scheduleFollowUp } ic]
          ∧ (completion env s text ic role name).threw = false)
      ∧ ((¬ ∃ w ∈ yesPattern, OccursIgnoreCase w text) →
          (∃ w ∈ noPattern, OccursIgnoreCase w text) →
          (completion env s text ic role name).log
              = [.gptreply { partialResponseIndex := s.partialResponseIndex
                             partialResponse := scheduleDecline } ic]
            ∧ (completion env s text ic role name).threw = false)
      ∧ ((¬ ∃ w ∈ yesPattern, OccursIgnoreCase w text) →
          (¬ ∃ w ∈ noPattern, OccursIgnoreCase w text) →
          completion env s text ic role name
            = catchBlock (tryBlock env
                (resolveServiceType env (updateUserContext s name role text) text)
                (zipMatch text) ic) ic) := by
  have hl : includes (lastMsg (updateUserContext s name role text))
      (js "schedule an appointment") = true := by
    rw [lastMsg_updateUserContext s name role text m hlast]
    exact (includes_iff_occurs _ _).mpr hoffer
  rw [completion_not_fast_path env s text ic role name hfast]
  simp only [← matchAlternation_iff]
  unfold completionRest
  simp only [hl, Bool.true_and]
  refine ⟨?_, ?_, ?_⟩
  · intro hy
    simp [hy, emitReply, updateUserContext_index]
  · intro hy hn
    simp [hy, hn, emitReply, updateUserContext_index]
  · intro hy hn
    simp [hy, hn]

set_option maxRecDepth 100000 in
/-- C4, amended, at the scenario of the specification: the reply "yeah" to an offer. -/
theorem C4_scheduling_reply_by_substring_witness :
    (completion offerCall.env (runCalls GptService.new [offerCall]).1 (js "yeah") 1
        (js "user") (js "user")).log
      = [.gptreply { partialResponseIndex := 1, partialResponse := scheduleFollowUp } 1] :=
  ((C4_scheduling_reply_by_substring offerCall.env (runCalls GptService.new [offerCall]).1
      (js "yeah") 1 (js "user") (js "user")
      (assistantTurn (js "Would you like to schedule an appointment?"))
      (by decide) (by decide) (by decide)).1
    ⟨js "yeah", by decide, js "yeah", by decide, rfl⟩).1

theorem any_includes_iff (lowered : JsString) (keywords : List JsString) :
    keywords.any (fun keyword => includes lowered keyword) = true
      ↔ ∃ k ∈ keywords, k <:+: lowered := by
  simp only [List.any_eq_true, includes_iff_occurs]

theorem determineServiceTypeLoop_eq_some (lowered : JsString)
    (entries : List (ServiceType × List JsString)) (t : ServiceType) :
    determineServiceTypeLoop lowered entries = some t
      ↔ ∃ pre keywords post, entries = pre ++ (t, keywords) :: post
          ∧ (∃ k ∈ keywords, k <:+: lowered)
          ∧ ∀ e ∈ pre, ¬ ∃ k ∈ e.2, k <:+: lowered := by
  induction entries with
  | nil => simp [determineServiceTypeLoop]
  | cons e es ih =>
    obtain ⟨type, keywords⟩ := e
    unfold determineServiceTypeLoop
    split
    · rename_i h
      rw [any_includes_iff] at h
      constructor
      · intro ht
        cases ht
        exact ⟨[], keywords, es, rfl, h, by simp⟩
      · rintro ⟨pre, kws, post, heq, hk, hpre⟩
        cases pre with
        | nil =>
          simp only [List.nil_append, List.cons.injEq, Prod.mk.injEq] at heq
          rw [heq.1.1]
        | cons p ps =>
          simp only [List.cons_append, List.cons.injEq] at heq
          exact absurd (heq.1 ▸ h) (hpre p (List.mem_cons_self _ _))
    · rename_i h
      rw [any_includes_iff] at h
      rw [ih]
      constructor
      · rintro ⟨pre, kws, post, heq, hk, hpre⟩
        refine ⟨(type, keywords) :: pre, kws, post, by simp [heq], hk, ?_⟩
        intro e he
        rcases List.mem_cons.mp he with rfl | he
        · exact h
        · exact hpre e he
      · rintro ⟨pre, kws, post, heq, hk, hpre⟩
        cases pre with
        | nil =>
          simp only [List.nil_append, List.cons.injEq, Prod.mk.injEq] at heq
          exact absurd (heq.1.2 ▸ hk) h
        | cons p ps =>
          simp only [List.cons_append, List.cons.injEq] at heq
          exact ⟨ps, kws, post, heq.2, hk, fun e he => hpre e (List.mem_cons_of_mem _ he)⟩

theorem determineServiceTypeLoop_eq_none (lowered : JsString)
    (entries : List (ServiceType × List JsString)) :
    determineServiceTypeLoop lowered entries = none
      ↔ ∀ e ∈ entries, ¬ ∃ k ∈ e.2, k <:+: lowered := by
  induction entries with
  | nil => simp [determineServiceTypeLoop]
  | cons e es ih =>
    obtain ⟨type, keywords⟩ := e
    unfold determineServiceTypeLoop
    split
    · rename_i h
      rw [any_includes_iff] at h
      simp only [List.mem_cons, forall_eq_or_imp]
      exact ⟨fun h' => (by cases h'), fun h' => absurd h h'.1⟩
    · rename_i h
      rw [any_includes_iff] at h
      rw [ih]
      simp only [List.mem_cons, forall_eq_or_imp]
      exact ⟨fun h' => ⟨h, h'⟩, fun h' => h'.2⟩

theorem serviceKeywords_split {pre post : List (ServiceType × List JsString)}
    {t : ServiceType} {keywords : List JsString}
    (h : serviceKeywords = pre ++ (t, keywords) :: post) :
    ∀ e ∈ pre, e.1.rank < t.rank := by
  have hr : (serviceKeywords.map (fun e => e.1.rank)) = [0, 1, 2, 3] := rfl
  rw [h, List.map_append, List.map_cons] at hr
  intro e he
  have hs : List.Sorted (· < ·) ((pre.map fun e => e.1.rank) ++ t.rank :: post.map fun e => e.1.rank) := by
    rw [hr]; decide
  have := (List.pairwise_append.mp hs).2.2 e.1.rank (List.mem_map_of_mem _ he) t.rank
    (List.mem_cons_self _ _)
  exact this

theorem mem_serviceKeywords_split {t : ServiceType} {keywords : List JsString}
    (h : (t, keywords) ∈ serviceKeywords) :
    ∃ pre post, serviceKeywords = pre ++ (t, keywords) :: post
      ∧ ∀ e ∈ pre, e.1.rank < t.rank := by
  obtain ⟨pre, post, hs⟩ := List.append_of_mem h
  exact ⟨pre, post, hs, serviceKeywords_split hs⟩

/-- C5. `determineServiceType` returns the first category, in the order plumbing,
electrical, hvac, general, one of whose keywords occurs in the lower-cased text: it returns
`t` exactly when a keyword of `t` occurs and no keyword of a category before `t` does, and
`null` exactly when no keyword of any category occurs.  The utterance "my toilet is clogged
and leaking for two days", which lower-casing leaves as it is, gives plumbing. -/
theorem C5_first_matching_category (toLowerCase : JsString → JsString) (text : JsString) :
    (∀ t, determineServiceType toLowerCase text = some t
        ↔ Mentions (toLowerCase text) t
          ∧ ∀ t', t'.rank < t.rank → ¬ Mentions (toLowerCase text) t')
      ∧ (determineServiceType toLowerCase text = none
          ↔ ∀ t, ¬ Mentions (toLowerCase text) t)
      ∧ [ServiceType.plumbing, .electrical, .hvac, .general].map ServiceType.rank = [0, 1, 2, 3]
      ∧ (toLowerCase toiletUtterance = toiletUtterance →
          determineServiceType toLowerCase toiletUtterance = some .plumbing) := by
  refine ⟨?_, ?_, rfl, ?_⟩
  · intro t
    unfold determineServiceType
    rw [determineServiceTypeLoop_eq_some]
    constructor
    · rintro ⟨pre, keywords, post, hs, hk, hpre⟩
      refine ⟨⟨keywords, by rw [hs]; simp, hk⟩, ?_⟩
      rintro t' hlt ⟨kws', hmem, hk'⟩
      rw [hs] at hmem
      rcases List.mem_append.mp hmem with hm | hm
      · exact hpre _ hm hk'
      · rcases List.mem_cons.mp hm with heq | hm
        · cases heq; exact absurd hlt (Nat.lt_irrefl _)
        · obtain ⟨a, b, hb⟩ := List.append_of_mem hm
          have hs' : serviceKeywords = (pre ++ (t, keywords) :: a) ++ (t', kws') :: b := by
            rw [hs, hb]; simp
          have := serviceKeywords_split hs' (t, keywords) (by simp)
          exact absurd hlt (Nat.lt_asymm this)
    · rintro ⟨⟨keywords, hmem, hk⟩, hmin⟩
      obtain ⟨pre, post, hs, hlt⟩ := mem_serviceKeywords_split hmem
      refine ⟨pre, keywords, post, hs, hk, ?_⟩
      intro e he hke
      exact hmin e.1 (hlt e he) ⟨e.2, by rw [hs]; simp [he], hke⟩
  · unfold determineServiceType
    rw [determineServiceTypeLoop_eq_none]
    constructor
    · rintro h t ⟨keywords, hmem, hk⟩
      exact h _ hmem hk
    · intro h e he hk
      exact h e.1 ⟨e.2, he, hk⟩
  · intro h
    unfold determineServiceType
    rw [h]
    decide

/-- C5 at the utterance of the scenario, lower-cased on the ASCII range. -/
theorem C5_first_matching_category_witness :
    determineServiceType asciiToLowerCase toiletUtterance = some .plumbing :=
  (C5_first_matching_category asciiToLowerCase toiletUtterance).2.2.2 (by decide)

theorem resolveServiceType_userContext (env : Collaborators) (s : GptService)
    (text : JsString) : (resolveServiceType env s text).userContext = s.userContext := by
  unfold resolveServiceType; split <;> rfl

theorem resolveServiceType_detailsCollected (env : Collaborators) (s : GptService)
    (text : JsString) :
    (resolveServiceType env s text).detailsCollected = s.detailsCollected := by
  unfold resolveServiceType; split <;> rfl

theorem completionRest_no_short_circuit (env : Collaborators) (s1 : GptService)
    (text : JsString) (ic : Nat)
    (h : ¬ (includes (lastMsg s1) (js "schedule an appointment") = true
      ∧ (matchAlternationIgnoreCase yesPattern text = true
        ∨ matchAlternationIgnoreCase noPattern text = true))) :
    completionRest env s1 text ic
      = catchBlock (tryBlock env (resolveServiceType env s1 text) (zipMatch text) ic) ic := by
  unfold completionRest
  rw [if_neg, if_neg]
  · intro hc
    simp only [Bool.and_eq_true] at hc
    exact h ⟨hc.1, Or.inr hc.2⟩
  · intro hc
    simp only [Bool.and_eq_true] at hc
    exact h ⟨hc.1, Or.inl hc.2⟩

theorem tryBlock_followUp (env : Collaborators) (s : GptService) (zip : Option JsString)
    (ic : Nat) (hs : s.serviceType.isSome = true) (hd : s.detailsCollected = false) :
    tryBlock env s zip ic = followUpBranch env s ic := by
  unfold tryBlock
  simp [hs, hd]

theorem streamLoop_done_not_threw (ic i : Nat) (chunks : List JsString) :
    ∀ c p : JsString, (streamLoop ic i .done chunks c p).exit ≠ .threw := by
  induction chunks with
  | nil => intro c p; simp [streamLoop]
  | cons content rest ih =>
    intro c p
    unfold streamLoop
    split
    · split
      · simp
      · exact ih _ _
    · exact ih _ _

theorem completion_reaches_try (env : Collaborators) (s : GptService) (text : JsString)
    (ic : Nat) (role name : JsString) (h : ReachesTry s text role name) :
    completion env s text ic role name
      = catchBlock (tryBlock env (atTry env s text role name) (zipMatch text) ic) ic := by
  rw [completion_not_fast_path env s text ic role name h.1,
    completionRest_no_short_circuit env _ text ic h.2]
  rfl

/-- C6. A call that reaches the follow-up branch (category resolved, detail not yet
sufficient) and whose stream is not left by a failure: with 4 or more turns in the history
(the new user turn included) `detailsCollected` becomes true and "What's your zip code?" is
emitted after everything the loop over the stream did, as the last event of the call; with
fewer than 4 turns `detailsCollected` stays false and the call does nothing besides the
request and the loop.  So `detailsCollected` becomes true exactly with 4 or more turns. -/
theorem C6_details_sufficient_after_four_turns (env : Collaborators) (s : GptService)
    (text : JsString) (ic : Nat) (role name : JsString) (tokens : TokenStream)
    (hreach : ReachesTry s text role name)
    (hcat : (atTry env s text role name).serviceType.isSome = true)
    (hdet : s.detailsCollected = false)
    (hcreate : env.create ((updateUserContext s name role text).userContext
      ++ [followUpInstruction]) = .stream tokens)
    (hok : (streamLoop ic s.partialResponseIndex tokens.ending tokens.chunks [] []).exit
      ≠ .threw) :
    (4 ≤ s.userContext.length + 1 →
        (completion env s text ic role name).svc.detailsCollected = true
          ∧ (completion env s text ic role name).log
            = .request ((updateUserContext s name role text).userContext
                  ++ [followUpInstruction])
                :: (streamLoop ic s.partialResponseIndex tokens.ending tokens.chunks [] []).log
                ++ [.gptreply
                  { partialResponseIndex :=
                      (streamLoop ic s.partialResponseIndex tokens.ending tokens.chunks
                        [] []).index
                    partialResponse := zipPrompt } ic])
      ∧ (s.userContext.length + 1 < 4 →
          (completion env s text ic role name).svc.detailsCollected = false
            ∧ (completion env s text ic role name).log
              = .request ((updateUserContext s name role text).userContext
                    ++ [followUpInstruction])
                  :: (streamLoop ic s.partialResponseIndex tokens.ending tokens.chunks
                      [] []).log)
      ∧ ((completion env s text ic role name).svc.detailsCollected = true
          ↔ 4 ≤ s.userContext.length + 1) := by
  have hd' : (atTry env s text role name).detailsCollected = false := by
    unfold atTry; rw [resolveServiceType_detailsCollected]; exact hdet
  have hu : (atTry env s text role name).userContext
      = (updateUserContext s name role text).userContext :=
    resolveServiceType_userContext env _ text
  have hi : (atTry env s text role name).partialResponseIndex = s.partialResponseIndex :=
    resolveServiceType_index env _ text
  have hlen : (updateUserContext s name role text).userContext.length
      = s.userContext.length + 1 := by simp [updateUserContext]
  rw [completion_reaches_try env s text ic role name hreach,
    tryBlock_followUp env _ _ ic hcat hd']
  simp only [followUpBranch, hu, hi, hcreate, if_neg hok, hlen]
  by_cases h4 : 4 ≤ s.userContext.length + 1
  · have h4' : s.userContext.length + 1 ≥ 4 := h4
    simp only [if_pos h4', catchBlock, emitReply]
    simp [h4]
  · have h4' : ¬ s.userContext.length + 1 ≥ 4 := h4
    simp only [if_neg h4', catchBlock, hd']
    simp [h4]

set_option maxRecDepth 100000 in
/-- C6 at the scenario of the specification: the second utterance of the caller is the
fourth turn of the history, and makes the detail sufficient. -/
theorem C6_details_sufficient_after_four_turns_witness :
    (runCalls GptService.new [clogCall]).1.userContext.length + 1 = 4
      ∧ (completion clogCall.env (runCalls GptService.new [clogCall]).1 (js "since monday") 1
          (js "user") (js "user")).svc.detailsCollected = true :=
  ⟨by decide,
   ((C6_details_sufficient_after_four_turns clogCall.env
      (runCalls GptService.new [clogCall]).1 (js "since monday") 1 (js "user") (js "user")
      questionStream (by decide) (by decide) (by decide) rfl (by decide)).1 (by decide)).1⟩

theorem streamLoop_break (ic idx : Nat) (e : StreamEnd) (chunks : List JsString) :
    ∀ (j : Nat) (c p : JsString), j < chunks.length →
      includes p (js "?") = false →
      includes (p ++ (chunks.take (j + 1)).flatten) (js "?") = true →
      (∀ i < j, includes (p ++ (chunks.take (i + 1)).flatten) (js "?") = false) →
      streamLoop ic idx e chunks c p
        = { completeResponse := c ++ (chunks.take (j + 1)).flatten
            index := idx + 1
            log := (chunks.take (j + 1)).map Event.chunk
              ++ [.gptreply { partialResponseIndex := idx
                              partialResponse := p ++ (chunks.take (j + 1)).flatten } ic]
            exit := .broke } := by
  induction chunks with
  | nil => intro j c p hj; simp at hj
  | cons content rest ih =>
    intro j c p hj hp hq hmin
    cases j with
    | zero =>
      simp only [Nat.zero_add, List.take_succ_cons, List.take_zero, List.flatten_cons,
        List.flatten_nil, List.append_nil] at hq ⊢
      have hne : content ≠ [] := by
        rintro rfl
        rw [List.append_nil, hp] at hq
        cases hq
      unfold streamLoop
      rw [if_pos hne, if_pos hq]
      rfl
    | succ j =>
      have h0 := hmin 0 (Nat.succ_pos j)
      simp only [Nat.zero_add, List.take_succ_cons, List.take_zero, List.flatten_cons,
        List.flatten_nil, List.append_nil] at h0
      have hj' : j < rest.length := by simpa using hj
      have hq' : includes ((p ++ content) ++ (rest.take (j + 1)).flatten) (js "?") = true := by
        simpa [List.take_succ_cons, List.append_assoc] using hq
      have hmin' : ∀ i < j,
          includes ((p ++ content) ++ (rest.take (i + 1)).flatten) (js "?") = false := by
        intro i hi
        simpa [List.take_succ_cons, List.append_assoc] using hmin (i + 1) (Nat.succ_lt_succ hi)
      unfold streamLoop
      by_cases hne : content ≠ []
      · rw [if_pos hne, if_neg (by rw [h0]; simp)]
        simp only [ih j (c ++ content) (p ++ content) hj' h0 hq' hmin']
        simp [List.take_succ_cons, List.append_assoc]
      · rw [if_neg hne]
        have hc : content = [] := not_not.mp hne
        subst hc
        simp only [List.append_nil] at h0 hq' hmin'
        simp only [ih j c p hj' hp hq' hmin']
        simp [List.take_succ_cons]

theorem streamLoop_no_question (ic idx : Nat) (e : StreamEnd) (chunks : List JsString) :
    ∀ (c p : JsString),
      (∀ j < chunks.length, includes (p ++ (chunks.take (j + 1)).flatten) (js "?") = false) →
      streamLoop ic idx e chunks c p
        = { completeResponse := c ++ chunks.flatten
            index := idx
            log := chunks.map Event.chunk
            exit := if e = .throws then .threw else .exhausted } := by
  induction chunks with
  | nil => intro c p _; simp [streamLoop]
  | cons content rest ih =>
    intro c p h
    have h0 := h 0 (by simp)
    simp only [Nat.zero_add, List.take_succ_cons, List.take_zero, List.flatten_cons,
      List.flatten_nil, List.append_nil] at h0
    have h' : ∀ j < rest.length,
        includes ((p ++ content) ++ (rest.take (j + 1)).flatten) (js "?") = false := by
      intro j hj
      simpa [List.take_succ_cons, List.append_assoc] using h (j + 1) (by simpa using hj)
    unfold streamLoop
    by_cases hne : content ≠ []
    · rw [if_pos hne, if_neg (by rw [h0]; simp)]
      simp only [ih (c ++ content) (p ++ content) h']
      simp [List.append_assoc]
    · rw [if_neg hne]
      have hc : content = [] := not_not.mp hne
      subst hc
      simp only [List.append_nil] at h'
      simp only [ih c p h']
      simp

theorem no_firstQuestion (chunks : List JsString) (h : ¬ ∃ j, FirstQuestion chunks j) :
    ∀ j < chunks.length, includes (chunks.take (j + 1)).flatten (js "?") = false := by
  intro j
  induction j using Nat.strong_induction_on with
  | _ j ih =>
    intro hj
    by_contra hc
    apply h
    refine ⟨j, hj, by simpa using hc, ?_⟩
    intro i hi
    exact ih i hi (Nat.lt_trans hi hj)

theorem streamLoop_firstQuestion (ic idx : Nat) (e : StreamEnd) (chunks : List JsString)
    (j : Nat) (h : FirstQuestion chunks j) :
    streamLoop ic idx e chunks [] []
      = { completeResponse := (chunks.take (j + 1)).flatten
          index := idx + 1
          log := (chunks.take (j + 1)).map Event.chunk
            ++ [.gptreply { partialResponseIndex := idx
                            partialResponse := (chunks.take (j + 1)).flatten } ic]
          exit := .broke } := by
  have := streamLoop_break ic idx e chunks j [] [] h.1 (by decide)
    (by simpa using h.2.1) (by simpa using h.2.2)
  simpa using this

theorem streamLoop_no_firstQuestion (ic idx : Nat) (e : StreamEnd) (chunks : List JsString)
    (h : ¬ ∃ j, FirstQuestion chunks j) :
    streamLoop ic idx e chunks [] []
      = { completeResponse := chunks.flatten
          index := idx
          log := chunks.map Event.chunk
          exit := if e = .throws then .threw else .exhausted } := by
  have := streamLoop_no_question ic idx e chunks [] []
    (by simpa using no_firstQuestion chunks h)
  simpa using this

/-- C7. In both model-driven branches, what comes from the model's stream is cut at the
first token after which the accumulated text contains a question mark: the chunks read are
the ones up to and including that token, exactly one reply is emitted from the stream and
its text is their concatenation, and the assistant turn appended to the history is that
same text.  When there is no such token every chunk is read, no reply is emitted from the
stream, and the assistant turn appended (if the stream does not fail) is the whole text.
The follow-up branch may add the location-code prompt after it, the initial branch adds
nothing. -/
theorem C7_truncation_at_first_question (env : Collaborators) (s : GptService) (ic : Nat)
    (tokens : TokenStream) :
    (env.create (s.userContext ++ [followUpInstruction]) = .stream tokens →
        TruncatedAtFirstQuestion s ic tokens (s.userContext ++ [followUpInstruction])
          (zipPromptEvents s ic) (followUpBranch env s ic))
      ∧ (env.create (s.userContext ++ [initialInstruction]) = .stream tokens →
          TruncatedAtFirstQuestion s ic tokens (s.userContext ++ [initialInstruction])
            (fun _ => []) (initialBranch env s ic)) := by
  constructor
  · intro hc
    refine ⟨?_, ?_, ?_⟩
    · intro j hj
      simp only [followUpBranch, hc, streamLoop_firstQuestion ic _ _ _ j hj, zipPromptEvents,
        emitReply, assistantTurn]
      by_cases h4 : s.userContext.length ≥ 4 <;> simp [h4]
    · intro hn hd
      simp only [followUpBranch, hc, streamLoop_no_firstQuestion ic _ _ _ hn, hd,
        zipPromptEvents, emitReply, assistantTurn]
      by_cases h4 : s.userContext.length ≥ 4 <;> simp [h4]
    · intro hn hd
      simp [followUpBranch, hc, streamLoop_no_firstQuestion ic _ _ _ hn, hd]
  · intro hc
    refine ⟨?_, ?_, ?_⟩
    · intro j hj
      simp [initialBranch, hc, streamLoop_firstQuestion ic _ _ _ j hj, assistantTurn]
    · intro hn hd
      simp [initialBranch, hc, streamLoop_no_firstQuestion ic _ _ _ hn, hd, assistantTurn]
    · intro hn hd
      simp [initialBranch, hc, streamLoop_no_firstQuestion ic _ _ _ hn, hd]

set_option maxRecDepth 100000 in
/-- C7 at the first call of the scenario: of the five chunks of the stream the first four
are read, the reply is "Is it overflowing?", and the message appended to the history is
the assistant's "Is it overflowing?". -/
theorem C7_truncation_at_first_question_witness :
    chunksRead (followUpBranch clogCall.env
        (atTry clogCall.env GptService.new toiletUtterance (js "user") (js "user")) 0).log
        = [js "Is it ", js "", js "overflowing", js "?"]
      ∧ replies (followUpBranch clogCall.env
        (atTry clogCall.env GptService.new toiletUtterance (js "user") (js "user")) 0).log
        = [({ partialResponseIndex := 0, partialResponse := js "Is it overflowing?" }, 0)]
      ∧ (followUpBranch clogCall.env
          (atTry clogCall.env GptService.new toiletUtterance (js "user") (js "user"))
          0).svc.userContext
        = (atTry clogCall.env GptService.new toiletUtterance (js "user")
            (js "user")).userContext
          ++ [{ role := js "assistant", name := none, content := js "Is it overflowing?" }] := by
  have h := ((C7_truncation_at_first_question clogCall.env
    (atTry clogCall.env GptService.new toiletUtterance (js "user") (js "user")) 0
    questionStream).1 rfl).1 3 (by decide)
  rw [h.1, h.2.1]
  refine ⟨rfl, rfl, ?_⟩
  have hc : (questionStream.chunks.take (3 + 1)).flatten = js "Is it overflowing?" := by decide
  rw [hc]

theorem requests_append (l1 l2 : List Event) :
    requests (l1 ++ l2) = requests l1 ++ requests l2 := by
  induction l1 with
  | nil => rfl
  | cons e es ih => cases e <;> simp [requests, ih]

theorem requests_streamLoop (ic i : Nat) (e : StreamEnd) (chunks : List JsString) :
    ∀ c p : JsString, requests (streamLoop ic i e chunks c p).log = [] := by
  induction chunks with
  | nil => intro c p; simp [streamLoop, requests]
  | cons content rest ih =>
    intro c p
    unfold streamLoop
    split
    · split
      · simp [requests]
      · simpa [requests] using ih _ _
    · simpa [requests] using ih _ _

theorem replies_map_chunk (chunks : List JsString) :
    replies (chunks.map Event.chunk) = [] := by
  induction chunks with
  | nil => rfl
  | cons c cs ih => simpa [replies] using ih

theorem requests_zipFastPath (env : Collaborators) (s : GptService) (z : JsString) (ic : Nat) :
    requests (zipFastPath env s z ic).log = [] := by
  unfold zipFastPath handleZipCode emitReply
  cases s.serviceType <;> simp [requests]

theorem requests_not_reachesTry (env : Collaborators) (s : GptService) (text : JsString)
    (ic : Nat) (role name : JsString) (h : ¬ ReachesTry s text role name) :
    requests (completion env s text ic role name).log = [] := by
  by_cases hf : (zipMatch text).isSome = true ∧ s.serviceType.isSome = true
      ∧ s.detailsCollected = true
  · obtain ⟨hz, hs, hd⟩ := hf
    obtain ⟨zip, hzip⟩ := Option.isSome_iff_exists.mp hz
    obtain ⟨t, ht⟩ := Option.isSome_iff_exists.mp hs
    rw [completion_fast_path env s text ic role name zip t ht hd hzip]
    exact requests_zipFastPath _ _ _ _
  · have hsc : includes (lastMsg (updateUserContext s name role text))
          (js "schedule an appointment") = true
        ∧ (matchAlternationIgnoreCase yesPattern text = true
          ∨ matchAlternationIgnoreCase noPattern text = true) := by
      by_contra hc
      exact h ⟨hf, hc⟩
    rw [completion_not_fast_path env s text ic role name hf]
    unfold completionRest
    by_cases hy : matchAlternationIgnoreCase yesPattern text = true
    · simp [hsc.1, hy, emitReply, requests]
    · have hn : matchAlternationIgnoreCase noPattern text = true := hsc.2.resolve_left hy
      simp [hsc.1, hy, hn, emitReply, requests]

theorem requests_followUpBranch (env : Collaborators) (s : GptService) (ic : Nat) :
    requests (followUpBranch env s ic).log = [s.userContext ++ [followUpInstruction]] := by
  cases hc : env.create (s.userContext ++ [followUpInstruction]) with
  | throws => simp [followUpBranch, hc, requests]
  | stream tokens =>
    simp only [followUpBranch, hc]
    split
    · simp [requests, requests_streamLoop]
    · split
      · simp [requests, requests_append, requests_streamLoop, emitReply]
      · simp [requests, requests_streamLoop]

theorem requests_initialBranch (env : Collaborators) (s : GptService) (ic : Nat) :
    requests (initialBranch env s ic).log = [s.userContext ++ [initialInstruction]] := by
  cases hc : env.create (s.userContext ++ [initialInstruction]) with
  | throws => simp [initialBranch, hc, requests]
  | stream tokens =>
    simp only [initialBranch, hc]
    split
    · simp [requests, requests_streamLoop]
    · simp [requests, requests_streamLoop]

theorem followUpBranch_fails (env : Collaborators) (s : GptService) (ic : Nat)
    (h : FailsBeforeReply (env.create (s.userContext ++ [followUpInstruction]))) :
    FailedRun s (followUpBranch env s ic) := by
  cases hc : env.create (s.userContext ++ [followUpInstruction]) with
  | throws => simp [FailedRun, followUpBranch, hc, replies]
  | stream tokens =>
    rw [hc] at h
    simp [FailedRun, followUpBranch, hc, streamLoop_no_firstQuestion ic _ _ _ h.2, h.1,
      replies, replies_map_chunk]

theorem initialBranch_fails (env : Collaborators) (s : GptService) (ic : Nat)
    (h : FailsBeforeReply (env.create (s.userContext ++ [initialInstruction]))) :
    FailedRun s (initialBranch env s ic) := by
  cases hc : env.create (s.userContext ++ [initialInstruction]) with
  | throws => simp [FailedRun, initialBranch, hc, replies]
  | stream tokens =>
    rw [hc] at h
    simp [FailedRun, initialBranch, hc, streamLoop_no_firstQuestion ic _ _ _ h.2, h.1,
      replies, replies_map_chunk]

theorem tryBlock_fails (env : Collaborators) (s : GptService) (zip : Option JsString)
    (ic : Nat) (messages : List Message)
    (hreq : messages ∈ requests (tryBlock env s zip ic).log)
    (hfail : FailsBeforeReply (env.create messages)) :
    FailedRun s (tryBlock env s zip ic) := by
  unfold tryBlock at hreq ⊢
  split
  · rename_i h
    rw [if_pos h, requests_followUpBranch, List.mem_singleton] at hreq
    exact followUpBranch_fails env s ic (hreq ▸ hfail)
  · rename_i h
    rw [if_neg h] at hreq
    split
    · rename_i h2
      rw [if_pos h2] at hreq
      simp [emitReply, requests] at hreq
    · rename_i h2
      rw [if_neg h2, requests_initialBranch, List.mem_singleton] at hreq
      exact initialBranch_fails env s ic (hreq ▸ hfail)

/-- C8. If a request that `completion` makes to the model fails before a reply from it
(the request throws, or its stream throws with no question mark reached), the call does
not fail: it returns normally, the only reply it emits is "Could you repeat that?" with the
fragment counter as it was on entry, the counter advances by one, and `detailsCollected`
is unchanged. -/
theorem C8_model_failure_gives_retry_prompt (env : Collaborators) (s : GptService)
    (text : JsString) (ic : Nat) (role name : JsString) (messages : List Message)
    (hreq : messages ∈ requests (completion env s text ic role name).log)
    (hfail : FailsBeforeReply (env.create messages)) :
    (completion env s text ic role name).threw = false
      ∧ replies (completion env s text ic role name).log
          = [({ partialResponseIndex := s.partialResponseIndex
                partialResponse := retryPrompt }, ic)]
      ∧ (completion env s text ic role name).svc.partialResponseIndex
          = s.partialResponseIndex + 1
      ∧ (completion env s text ic role name).svc.detailsCollected = s.detailsCollected := by
  by_cases hreach : ReachesTry s text role name
  · rw [completion_reaches_try env s text ic role name hreach] at hreq ⊢
    have hreq' : messages ∈ requests
        (tryBlock env (atTry env s text role name) (zipMatch text) ic).log := by
      unfold catchBlock at hreq
      split at hreq
      · simpa [requests_append, emitReply, requests] using hreq
      · exact hreq
    obtain ⟨h1, h2, h3, h4⟩ := tryBlock_fails env _ _ ic messages hreq' hfail
    have hi : (atTry env s text role name).partialResponseIndex = s.partialResponseIndex :=
      resolveServiceType_index env _ text
    have hd : (atTry env s text role name).detailsCollected = s.detailsCollected :=
      resolveServiceType_detailsCollected env _ text
    simp only [catchBlock, h1, if_true, emitReply, replies_append, h2, h3, h4, hi, hd]
    simp [replies]
  · rw [requests_not_reachesTry env s text ic role name hreach] at hreq
    cases hreq

set_option maxRecDepth 100000 in
/-- C8 at a first call whose request to the model throws. -/
theorem C8_model_failure_gives_retry_prompt_witness :
    (completion scenarioEnv GptService.new (js "hello") 0 (js "user") (js "user")).threw = false
      ∧ replies (completion scenarioEnv GptService.new (js "hello") 0 (js "user")
          (js "user")).log
          = [({ partialResponseIndex := 0, partialResponse := js "Could you repeat that?" }, 0)]
      ∧ (completion scenarioEnv GptService.new (js "hello") 0 (js "user")
          (js "user")).svc.partialResponseIndex = 1
      ∧ (completion scenarioEnv GptService.new (js "hello") 0 (js "user")
          (js "user")).svc.detailsCollected = false :=
  C8_model_failure_gives_retry_prompt scenarioEnv GptService.new (js "hello") 0 (js "user")
    (js "user")
    (GptService.new.userContext ++ [contextEntry (js "user") (js "user") (js "hello")]
      ++ [initialInstruction])
    (by
      have h : requests (completion scenarioEnv GptService.new (js "hello") 0 (js "user")
          (js "user")).log
          = [GptService.new.userContext ++ [contextEntry (js "user") (js "user") (js "hello")]
              ++ [initialInstruction]] := rfl
      rw [h]
      exact List.mem_singleton_self _)
    trivial

set_option maxRecDepth 100000 in
/-- The location-code prompt is not recorded: the second call of the scenario emits two
replies, the model's question and the prompt, and appends the caller's turn and one
assistant turn only, the model's question. -/
theorem location_prompt_not_recorded :
    replies (sinceCall.run (runCalls GptService.new [clogCall]).1).log
        = [({ partialResponseIndex := 1, partialResponse := js "Is it overflowing?" }, 1),
           ({ partialResponseIndex := 2, partialResponse := js "What's your zip code?" }, 1)]
      ∧ (sinceCall.run (runCalls GptService.new [clogCall]).1).svc.userContext.drop
          (runCalls GptService.new [clogCall]).1.userContext.length
        = [{ role := js "user", name := none, content := js "since monday" },
           { role := js "assistant", name := none, content := js "Is it overflowing?" }] := by
  decide

set_option maxRecDepth 100000 in
/-- C9 fails on the code.  From a fresh service the two calls of the scenario resolve
plumbing and collect the detail.  Then "94102" takes the zip-code fast path: the offer
"... Would you like to schedule an appointment?" is emitted, but the only turn appended to
the history is the caller's "94102", and no turn of the history holds the offer.  So for
the next call the turn before the caller's "yeah" is "94102", not the offer, the check for
a scheduling response finds nothing, and "yeah" is answered by "What's your zip code?".
Had the offer been recorded as an assistant turn, the same "yeah" would get the
scheduling follow-up. -/
theorem C9_zip_offer_not_recorded :
    (runCalls GptService.new [clogCall, sinceCall]).1.detailsCollected = true
      ∧ (runCalls GptService.new [clogCall, sinceCall]).1.serviceType = some .plumbing
      ∧ replies (zipCall.run (runCalls GptService.new [clogCall, sinceCall]).1).log
          = [({ partialResponseIndex := 3
                partialResponse := js "Perfect! Ann from Pipes Inc specializes in plumbing issues. Would you like to schedule an appointment?" }, 2)]
      ∧ (zipCall.run (runCalls GptService.new [clogCall, sinceCall]).1).svc.userContext.drop
          (runCalls GptService.new [clogCall, sinceCall]).1.userContext.length
          = [{ role := js "user", name := none, content := js "94102" }]
      ∧ (zipCall.run (runCalls GptService.new [clogCall, sinceCall]).1).svc.userContext.all
          (fun m => decide (m.content ≠ js "Perfect! Ann from Pipes Inc specializes in plumbing issues. Would you like to schedule an appointment?"))
          = true
      ∧ lastMsg (updateUserContext
            (zipCall.run (runCalls GptService.new [clogCall, sinceCall]).1).svc
            (js "user") (js "user") (js "yeah"))
          = js "94102"
      ∧ replies (completion scenarioEnv
            (zipCall.run (runCalls GptService.new [clogCall, sinceCall]).1).svc
            (js "yeah") 3 (js "user") (js "user")).log
          = [({ partialResponseIndex := 4, partialResponse := js "What's your zip code?" }, 3)]
      ∧ replies (completion scenarioEnv
            { (zipCall.run (runCalls GptService.new [clogCall, sinceCall]).1).svc with
              userContext :=
                (zipCall.run (runCalls GptService.new [clogCall, sinceCall]).1).svc.userContext
                  ++ [{ role := js "assistant", name := none
                        content := js "Perfect! Ann from Pipes Inc specializes in plumbing issues. Would you like to schedule an appointment?" }] }
            (js "yeah") 3 (js "user") (js "user")).log
          = [({ partialResponseIndex := 4
                partialResponse := js "When would you prefer the contractor to come? And is this an urgent matter?" }, 3)] := by
  decide

theorem followUpBranch_appends (env : Collaborators) (s : GptService) (ic : Nat) :
    AppendsAtMostOne s (followUpBranch env s ic) := by
  cases hc : env.create (s.userContext ++ [followUpInstruction]) with
  | throws => exact ⟨[], by simp [followUpBranch, hc], by simp⟩
  | stream tokens =>
    simp only [followUpBranch, hc]
    split
    · exact ⟨[], by simp, by simp⟩
    · split
      · exact ⟨[_], rfl, by simp⟩
      · exact ⟨[_], rfl, by simp⟩

theorem initialBranch_appends (env : Collaborators) (s : GptService) (ic : Nat) :
    AppendsAtMostOne s (initialBranch env s ic) := by
  cases hc : env.create (s.userContext ++ [initialInstruction]) with
  | throws => exact ⟨[], by simp [initialBranch, hc], by simp⟩
  | stream tokens =>
    simp only [initialBranch, hc]
    split
    · exact ⟨[], by simp, by simp⟩
    · exact ⟨[_], rfl, by simp⟩

theorem tryBlock_appends (env : Collaborators) (s : GptService) (zip : Option JsString)
    (ic : Nat) : AppendsAtMostOne s (tryBlock env s zip ic) := by
  unfold tryBlock
  split
  · exact followUpBranch_appends env s ic
  · split
    · exact ⟨[], by simp [emitReply], by simp⟩
    · exact initialBranch_appends env s ic

theorem catchBlock_userContext (r : Run) (ic : Nat) :
    (catchBlock r ic).svc.userContext = r.svc.userContext := by
  unfold catchBlock
  split <;> rfl

theorem completionRest_appends (env : Collaborators) (s : GptService) (text : JsString)
    (ic : Nat) : AppendsAtMostOne s (completionRest env s text ic) := by
  unfold completionRest
  split
  · exact ⟨[], by simp [emitReply], by simp⟩
  · split
    · exact ⟨[], by simp [emitReply], by simp⟩
    · obtain ⟨rest, h1, h2⟩ :=
        tryBlock_appends env (resolveServiceType env s text) (zipMatch text) ic
      rw [resolveServiceType_userContext] at h1
      exact ⟨rest, by rw [catchBlock_userContext, h1], h2⟩

theorem completionBody_appends (env : Collaborators) (s : GptService) (text : JsString)
    (ic : Nat) : AppendsAtMostOne s (completionBody env s text ic) := by
  unfold completionBody
  split
  · split
    · exact ⟨[], by simp [zipFastPath, emitReply], by simp⟩
    · exact completionRest_appends env s text ic
  · exact completionRest_appends env s text ic

theorem followUpBranch_recorded (env : Collaborators) (s : GptService) (ic : Nat)
    (tokens : TokenStream)
    (hc : env.create (s.userContext ++ [followUpInstruction]) = .stream tokens)
    (hok : (streamLoop ic s.partialResponseIndex tokens.ending tokens.chunks [] []).exit
      ≠ .threw) :
    (followUpBranch env s ic).svc.userContext
        = s.userContext ++ [assistantTurn
            (streamLoop ic s.partialResponseIndex tokens.ending tokens.chunks
              [] []).completeResponse]
      ∧ (followUpBranch env s ic).threw = false := by
  simp only [followUpBranch, hc, if_neg hok]
  split <;> simp [emitReply]

theorem initialBranch_recorded (env : Collaborators) (s : GptService) (ic : Nat)
    (tokens : TokenStream)
    (hc : env.create (s.userContext ++ [initialInstruction]) = .stream tokens)
    (hok : (streamLoop ic s.partialResponseIndex tokens.ending tokens.chunks [] []).exit
      ≠ .threw) :
    (initialBranch env s ic).svc.userContext
        = s.userContext ++ [assistantTurn
            (streamLoop ic s.partialResponseIndex tokens.ending tokens.chunks
              [] []).completeResponse]
      ∧ (initialBranch env s ic).threw = false := by
  simp [initialBranch, hc, if_neg hok]

theorem tryBlock_recorded (env : Collaborators) (s : GptService) (zip : Option JsString)
    (ic : Nat) (messages : List Message) (tokens : TokenStream)
    (hreq : messages ∈ requests (tryBlock env s zip ic).log)
    (hc : env.create messages = .stream tokens)
    (hok : (streamLoop ic s.partialResponseIndex tokens.ending tokens.chunks [] []).exit
      ≠ .threw) :
    (tryBlock env s zip ic).svc.userContext
        = s.userContext ++ [assistantTurn
            (streamLoop ic s.partialResponseIndex tokens.ending tokens.chunks
              [] []).completeResponse]
      ∧ (tryBlock env s zip ic).threw = false := by
  unfold tryBlock at hreq ⊢
  split
  · rename_i h
    rw [if_pos h, requests_followUpBranch, List.mem_singleton] at hreq
    exact followUpBranch_recorded env s ic tokens (hreq ▸ hc) hok
  · rename_i h
    rw [if_neg h] at hreq
    split
    · rename_i h2
      rw [if_pos h2] at hreq
      simp [emitReply, requests] at hreq
    · rename_i h2
      rw [if_neg h2, requests_initialBranch, List.mem_singleton] at hreq
      exact initialBranch_recorded env s ic tokens (hreq ▸ hc) hok

/-- What `completion` does to the history.  When it returns, the history is the history
before the call, unchanged, followed by the new user turn and then by at most one more
turn.  When the call makes a request to the model and the loop over its stream is not left
by a failure, that one turn is there: its role is `assistant`, it has no name and its
content is the text accumulated from the stream; nothing else the call emits is
recorded. -/
theorem history_extended_by_user_and_model_turn (env : Collaborators) (s : GptService)
    (text : JsString) (ic : Nat) (role name : JsString) :
    (∃ rest, (completion env s text ic role name).svc.userContext
          = s.userContext ++ contextEntry name role text :: rest
        ∧ rest.length ≤ 1)
      ∧ ∀ (messages : List Message) (tokens : TokenStream),
          messages ∈ requests (completion env s text ic role name).log →
          env.create messages = .stream tokens →
          (streamLoop ic s.partialResponseIndex tokens.ending tokens.chunks [] []).exit
            ≠ .threw →
          (completion env s text ic role name).svc.userContext
            = s.userContext ++ [contextEntry name role text,
                { role := js "assistant", name := none
                  content := (streamLoop ic s.partialResponseIndex tokens.ending
                    tokens.chunks [] []).completeResponse }] := by
  constructor
  · obtain ⟨rest, h1, h2⟩ :=
      completionBody_appends env (updateUserContext s name role text) text ic
    exact ⟨rest, by rw [completion, h1]; simp [updateUserContext], h2⟩
  · intro messages tokens hreq hc hok
    by_cases hreach : ReachesTry s text role name
    · rw [completion_reaches_try env s text ic role name hreach] at hreq ⊢
      have hreq' : messages ∈ requests
          (tryBlock env (atTry env s text role name) (zipMatch text) ic).log := by
        unfold catchBlock at hreq
        split at hreq
        · simpa [requests_append, emitReply, requests] using hreq
        · exact hreq
      have hi : (atTry env s text role name).partialResponseIndex = s.partialResponseIndex :=
        resolveServiceType_index env _ text
      have hu : (atTry env s text role name).userContext
          = s.userContext ++ [contextEntry name role text] :=
        resolveServiceType_userContext env _ text
      have := tryBlock_recorded env _ _ ic messages tokens hreq' hc (by rw [hi]; exact hok)
      rw [catchBlock_userContext, this.1, hu, hi]
      simp [assistantTurn]
    · rw [requests_not_reachesTry env s text ic role name hreach] at hreq
      cases hreq

theorem transcriptionBegin_quiet (s : Session) (text : JsString) :
    (∀ o ∈ (transcriptionBegin s text).2, o.isAck = false)
      ∧ (transcriptionBegin s text).1.connectionState.lastAckTimestamp
          = s.connectionState.lastAckTimestamp
      ∧ ((transcriptionBegin s text).1.connectionState.currentUtteranceAcks
            = s.connectionState.currentUtteranceAcks
          ∨ ((transcriptionBegin s text).1.connectionState.currentUtteranceAcks = 0
              ∧ ∃ o ∈ (transcriptionBegin s text).2, o.isReset = true)) := by
  unfold transcriptionBegin
  split
  · simp
  · simp [Output.isAck, Output.isReset]

theorem handleSilence_quiet (s : Session) :
    (∀ o ∈ (handleSilence s).2, o.isAck = false)
      ∧ (handleSilence s).1.connectionState.lastAckTimestamp
          = s.connectionState.lastAckTimestamp
      ∧ ((handleSilence s).1.connectionState.currentUtteranceAcks
            = s.connectionState.currentUtteranceAcks
          ∨ ((handleSilence s).1.connectionState.currentUtteranceAcks = 0
              ∧ ∃ o ∈ (handleSilence s).2, o.isReset = true)) := by
  have hb := transcriptionBegin_quiet s s.connectionState.currentSpeech
  unfold handleSilence
  split
  · refine ⟨?_, hb.2.1, Or.inr ⟨rfl, _, List.mem_cons_self _ _, rfl⟩⟩
    intro o ho
    rcases List.mem_cons.mp ho with rfl | ho
    · rfl
    · exact hb.1 o ho
  · simp

theorem onMessage_quiet (s : Session) (data : Inbound) (now : Int) :
    (∀ o ∈ (onMessage s data now).2, o.isAck = false)
      ∧ (onMessage s data now).1.connectionState.lastAckTimestamp
          = s.connectionState.lastAckTimestamp
      ∧ (onMessage s data now).1.connectionState.currentUtteranceAcks
          = s.connectionState.currentUtteranceAcks := by
  unfold onMessage
  split <;> simp [Output.isAck, cleanupConnection, rearmSilenceTimer]

theorem step_ackStep (s : Session) (i : Input) : AckStep s i := by
  cases i with
  | message data now =>
    have h := onMessage_quiet s data now
    exact Or.inr ⟨h.1, h.2.1, Or.inl h.2.2⟩
  | utterance text now choice =>
    simp only [AckStep, step]
    unfold onUtterance
    split
    · split
      · rename_i h
        refine Or.inl ⟨ACKNOWLEDGMENTS choice, now, rfl, h.1, ?_, ?_, h.2.2, rfl⟩
        · have := h.2.1
          simp only [MAX_ACKS_PER_UTTERANCE] at this
          omega
        · have := h.2.1
          simp only [MAX_ACKS_PER_UTTERANCE] at this
          show s.connectionState.currentUtteranceAcks + 1 = 1
          omega
      · exact Or.inr ⟨by simp, rfl, Or.inl rfl⟩
    · exact Or.inr ⟨by simp, rfl, Or.inl rfl⟩
  | transcription text => exact Or.inr (transcriptionBegin_quiet s text)
  | silence handle =>
    simp only [AckStep, step]
    split
    · exact Or.inr (handleSilence_quiet _)
    · exact Or.inr ⟨by simp, rfl, Or.inl rfl⟩
  | settled resolved =>
    refine Or.inr ⟨by simp [step], ?_, Or.inl ?_⟩
    · simp only [step, transcriptionEnd]; split <;> rfl
    · simp only [step, transcriptionEnd]; split <;> rfl
  | wsError => exact Or.inr ⟨by simp [step, cleanupConnection, Output.isAck], rfl, Or.inl rfl⟩
  | wsClose => exact Or.inr ⟨by simp [step, cleanupConnection, Output.isAck], rfl, Or.inl rfl⟩

theorem ackTimes_append (l1 l2 : List Output) :
    ackTimes (l1 ++ l2) = ackTimes l1 ++ ackTimes l2 := by
  induction l1 with
  | nil => rfl
  | cons o os ih => cases o <;> simp [ackTimes, ih]

theorem marks_append (l1 l2 : List Output) : marks (l1 ++ l2) = marks l1 ++ marks l2 := by
  simp [marks]

theorem ackTimes_quiet (l : List Output) (h : ∀ o ∈ l, o.isAck = false) : ackTimes l = [] := by
  induction l with
  | nil => rfl
  | cons o os ih =>
    have ho := h o (List.mem_cons_self _ _)
    have hos := ih (fun x hx => h x (List.mem_cons_of_mem _ hx))
    cases o <;> simp_all [ackTimes, Output.isAck]

theorem marks_quiet (l : List Output) (h : ∀ o ∈ l, o.isAck = false) :
    ∀ o ∈ marks l, o.isAck = false := by
  intro o ho
  exact h o (List.mem_of_mem_filter ho)

theorem chain_quiet (l : List Output) (h : ∀ o ∈ l, o.isAck = false) :
    List.Chain' NotBothAcks l := by
  induction l with
  | nil => exact List.chain'_nil
  | cons o os ih =>
    refine List.chain'_cons'.mpr ⟨?_, ih (fun x hx => h x (List.mem_cons_of_mem _ hx))⟩
    intro y _ hc
    have := h o (List.mem_cons_self _ _)
    rw [this] at hc
    exact absurd hc.1 (by simp)

theorem marks_ne_nil_of_reset (l : List Output) (h : ∃ o ∈ l, o.isReset = true) :
    marks l ≠ [] := by
  obtain ⟨o, ho, hr⟩ := h
  intro hc
  have : o ∈ marks l := List.mem_filter.mpr ⟨ho, by simp [hr]⟩
  rw [hc] at this
  cases this

theorem step_ackInvariant (s : Session) (outs : List Output) (i : Input)
    (h : AckInvariant s outs) : AckInvariant (step s i).1 (outs ++ (step s i).2) := by
  obtain ⟨h1, h2, h3, h4, h5⟩ := h
  rcases step_ackStep s i with ⟨text, now, hout, _, h0, hone, hcool, hlast⟩ | ⟨hq, hlast, hacks⟩
  · have hm : marks [Output.ack text s.connectionState.interactionCount now]
        = [Output.ack text s.connectionState.interactionCount now] := rfl
    have ht : ackTimes [Output.ack text s.connectionState.interactionCount now] = [now] := rfl
    rw [hout]
    refine ⟨by omega, ?_, ?_, ?_, ?_⟩
    · rw [marks_append, hm]
      refine List.Chain'.append h2 (List.chain'_singleton _) ?_
      intro x hx y _ hc
      have := h5 h0 x hx
      rw [this] at hc
      exact absurd hc.1 (by simp)
    · rw [ackTimes_append, ht]
      refine List.Chain'.append h3 (List.chain'_singleton _) ?_
      intro x hx y hy
      simp only [List.head?_cons, Option.mem_def, Option.some.injEq] at hy
      subst hy
      rw [← h4 x hx]
      exact hcool
    · intro t ht'
      rw [ackTimes_append, ht] at ht'
      rw [List.getLast?_concat] at ht'
      simp only [Option.mem_def, Option.some.injEq] at ht'
      rw [hlast, ht']
    · intro hz
      rw [hone] at hz
      cases hz
  · have hts := ackTimes_quiet _ hq
    refine ⟨?_, ?_, ?_, ?_, ?_⟩
    · rcases hacks with he | ⟨he, _⟩ <;> omega
    · rw [marks_append]
      refine List.Chain'.append h2 (chain_quiet _ (marks_quiet _ hq)) ?_
      intro x _ y hy hc
      have := marks_quiet _ hq y (List.mem_of_mem_head? hy)
      rw [this] at hc
      exact absurd hc.2 (by simp)
    · rw [ackTimes_append, hts, List.append_nil]
      exact h3
    · rw [ackTimes_append, hts, List.append_nil, hlast]
      exact h4
    · intro hz o ho
      rw [marks_append] at ho
      by_cases hn : marks (step s i).2 = []
      · rw [hn, List.append_nil] at ho
        rcases hacks with he | ⟨_, hr⟩
        · exact h5 (he ▸ hz) o ho
        · exact absurd hn (marks_ne_nil_of_reset _ hr)
      · rw [List.getLast?_append_of_ne_nil _ hn] at ho
        exact marks_quiet _ hq o (List.mem_of_mem_getLast? ho)

theorem run_ackInvariant (now : Int) (inputs : List Input) :
    AckInvariant (run (Session.connect now) inputs).1 (run (Session.connect now) inputs).2 := by
  have := run_invariant AckInvariant step_ackInvariant inputs (Session.connect now) []
    ⟨Nat.zero_le 1, List.chain'_nil, List.chain'_nil, by simp [ackTimes], by simp [marks]⟩
  simpa using this

/-- C10. After any sequence of inputs on a connection (frames and other messages, partial
utterances, finalized utterances, timer firings, completions settling): the counter
`currentUtteranceAcks` is 0 or 1; in the sequence of acknowledgments and resets (utterance
finalizations and completion starts) no two acknowledgments are adjacent, so at most one
is emitted between two consecutive resets; each acknowledgment is emitted more than 300 ms
after the one before it; and while `processingResponse` is set no handler emits an
acknowledgment. -/
theorem C10_acknowledgments_throttled (now : Int) (inputs : List Input) :
    ((run (Session.connect now) inputs).1.connectionState.currentUtteranceAcks = 0
        ∨ (run (Session.connect now) inputs).1.connectionState.currentUtteranceAcks = 1)
      ∧ List.Chain' NotBothAcks (marks (run (Session.connect now) inputs).2)
      ∧ List.Chain' (fun t1 t2 => 300 < t2 - t1) (ackTimes (run (Session.connect now) inputs).2)
      ∧ ((run (Session.connect now) inputs).1.connectionState.processingResponse = true →
          ∀ i, ∀ o ∈ (step (run (Session.connect now) inputs).1 i).2, o.isAck = false) := by
  obtain ⟨h1, h2, h3, _, _⟩ := run_ackInvariant now inputs
  refine ⟨by omega, h2, h3, ?_⟩
  intro hp i
  rcases step_ackStep (run (Session.connect now) inputs).1 i with
    ⟨_, _, _, hf, _⟩ | ⟨hq, _⟩
  · rw [hp] at hf
    cases hf
  · exact hq

/-- C10 at a concrete run: the first partial utterance is acknowledged, the second is not,
nor is one that arrives while the completion is in flight, and after the completion
settles the next one is. -/
theorem C10_acknowledgments_throttled_witness :
    ackTimes (run (Session.connect 0)
        (firstUtterance ++ [.utterance (js "and") 2000 2, .settled true,
          .utterance (js "more") 2500 2])).2 = [1000, 2500]
      ∧ (run (Session.connect 0) firstUtterance).1.connectionState.processingResponse = true
      ∧ ∀ o ∈ (step (run (Session.connect 0) firstUtterance).1
          (.utterance (js "and") 2000 2)).2, o.isAck = false :=
  ⟨by decide, by decide,
   (C10_acknowledgments_throttled 0 firstUtterance).2.2.2 (by decide)
     (.utterance (js "and") 2000 2)⟩

theorem cleanupConnection_timers (s : Session) (h : s.wsSilenceTimer = none) :
    (cleanupConnection s).1.timers = s.timers := by
  simp [cleanupConnection, h]

theorem step_wsSilenceTimer (s : Session) (i : Input) :
    (step s i).1.wsSilenceTimer = s.wsSilenceTimer := by
  cases i with
  | message data now =>
    simp only [step]
    unfold onMessage
    split <;> rfl
  | utterance text now choice =>
    simp only [step]
    unfold onUtterance
    split
    · split <;> rfl
    · rfl
  | transcription text =>
    simp only [step]
    unfold transcriptionBegin
    split <;> rfl
  | silence handle =>
    simp only [step]
    split
    · unfold handleSilence transcriptionBegin
      split
      · split <;> rfl
      · rfl
    · rfl
  | settled resolved =>
    simp only [step]
    unfold transcriptionEnd
    split <;> rfl
  | wsError => rfl
  | wsClose => rfl

theorem run_wsSilenceTimer (now : Int) (inputs : List Input) :
    (run (Session.connect now) inputs).1.wsSilenceTimer = none :=
  run_invariant (fun s _ => s.wsSilenceTimer = none)
    (fun s _ i h => (step_wsSilenceTimer s i).trans h) inputs (Session.connect now) [] rfl

/-- No close of a reachable session cancels anything: `ws.silenceTimer` is never assigned,
so `cleanupConnection` finds nothing to clear and the armed timers stay armed. -/
theorem close_keeps_timers (now : Int) (inputs : List Input) :
    (cleanupConnection (run (Session.connect now) inputs).1).1.timers
      = (run (Session.connect now) inputs).1.timers :=
  cleanupConnection_timers _ (run_wsSilenceTimer now inputs)

/-- C11 fails on the code.  A frame arms the silence timer, the caller says "hello", and
the session is closed by a `stop` message, a transport error or a transport close: the
session leaves the registry and the socket is terminated, but the timer armed by the frame
is still pending with its deadline, and when it fires `handleSilence` emits the finalized
utterance, which starts a completion. -/
theorem C11_silence_timer_survives_close :
    TimerSurvives (.message .stop 1200) ∧ TimerSurvives .wsError ∧ TimerSurvives .wsClose := by
  decide

theorem onMessage_eq_messageTry (s : Session) (data : Inbound) (now : Int) :
    onMessage s data now = (messageTry s data now).1 := by
  unfold onMessage messageTry
  split <;> rfl

theorem clearTimeout_subset (timers : List (Nat × Int)) (h : Nat) :
    ∀ t ∈ clearTimeout timers h, t ∈ timers := by
  intro t ht
  exact List.mem_of_mem_filter ht

theorem timers_nil_of_unset (s : Session) (h : TimerInvariant s)
    (hs : s.connectionState.silenceTimer = none) : s.timers = [] := by
  apply List.eq_nil_iff_forall_not_mem.mpr
  intro t ht
  have := h.1 t ht
  rw [hs] at this
  cases this

theorem clearTimeout_held (s : Session) (h : TimerInvariant s) (x : Nat)
    (hs : s.connectionState.silenceTimer = some x) : clearTimeout s.timers x = [] := by
  apply List.eq_nil_iff_forall_not_mem.mpr
  intro t ht
  have hm := List.mem_filter.mp ht
  have := h.1 t hm.1
  rw [hs] at this
  simp only [Option.some.injEq] at this
  simp [this] at hm

theorem rearmSilenceTimer_timers (s : Session) (now : Int) (h : TimerInvariant s) :
    (rearmSilenceTimer s now).timers = [(s.nextTimer, now + 800)] := by
  simp only [rearmSilenceTimer, MAX_SILENCE_TIME]
  split
  · rename_i x hx
    rw [clearTimeout_held s h x hx, List.nil_append]
  · rename_i hx
    rw [timers_nil_of_unset s h hx, List.nil_append]

theorem rearmSilenceTimer_invariant (s : Session) (now : Int) (h : TimerInvariant s) :
    TimerInvariant (rearmSilenceTimer s now) := by
  constructor
  · intro t ht
    rw [rearmSilenceTimer_timers s now h, List.mem_singleton] at ht
    rw [ht]
    rfl
  · intro x hx
    have : x = s.nextTimer := by
      simp only [rearmSilenceTimer, Option.some.injEq] at hx
      exact hx.symm
    rw [this]
    exact Nat.lt_succ_self _

theorem subset_timerInvariant (s s' : Session) (h : TimerInvariant s)
    (ht : ∀ t ∈ s'.timers, t ∈ s.timers)
    (hs : s'.connectionState.silenceTimer = s.connectionState.silenceTimer)
    (hn : s'.nextTimer = s.nextTimer) : TimerInvariant s' := by
  constructor
  · intro t htm
    rw [hs]
    exact h.1 t (ht t htm)
  · intro x hx
    rw [hn]
    rw [hs] at hx
    exact h.2 x hx

theorem cleanupConnection_timerInvariant (s : Session) (h : TimerInvariant s) :
    TimerInvariant (cleanupConnection s).1 := by
  refine subset_timerInvariant s _ h ?_ rfl rfl
  intro t ht
  simp only [cleanupConnection] at ht
  split at ht
  · exact clearTimeout_subset _ _ t ht
  · exact ht

theorem transcriptionBegin_timerInvariant (s : Session) (text : JsString)
    (h : TimerInvariant s) : TimerInvariant (transcriptionBegin s text).1 := by
  unfold transcriptionBegin
  split
  · exact h
  · exact subset_timerInvariant s _ h (fun _ ht => ht) rfl rfl

theorem handleSilence_timerInvariant (s : Session) (h : TimerInvariant s) :
    TimerInvariant (handleSilence s).1 := by
  unfold handleSilence
  split
  · have hb := transcriptionBegin_timerInvariant s s.connectionState.currentSpeech h
    exact subset_timerInvariant _ _ hb (fun _ ht => ht) rfl rfl
  · exact h

theorem onMessage_timerInvariant (s : Session) (data : Inbound) (now : Int)
    (h : TimerInvariant s) : TimerInvariant (onMessage s data now).1 := by
  unfold onMessage
  split
  · exact h
  · exact h
  · exact subset_timerInvariant s _ h (fun _ ht => ht) rfl rfl
  · exact rearmSilenceTimer_invariant s now h
  · exact rearmSilenceTimer_invariant s now h
  · exact rearmSilenceTimer_invariant s now h
  · exact h
  · exact cleanupConnection_timerInvariant s h
  · exact h

theorem step_timerInvariant (s : Session) (i : Input) (h : TimerInvariant s) :
    TimerInvariant (step s i).1 := by
  cases i with
  | message data now => exact onMessage_timerInvariant s data now h
  | utterance text now choice =>
    simp only [step]
    unfold onUtterance
    split
    · split <;> exact subset_timerInvariant s _ h (fun _ ht => ht) rfl rfl
    · exact h
  | transcription text => exact transcriptionBegin_timerInvariant s text h
  | silence handle =>
    simp only [step]
    split
    · apply handleSilence_timerInvariant
      exact subset_timerInvariant s _ h (clearTimeout_subset _ _) rfl rfl
    · exact h
  | settled resolved =>
    simp only [step]
    unfold transcriptionEnd
    split
    · exact h
    · exact subset_timerInvariant s _ h (fun _ ht => ht) rfl rfl
  | wsError => exact cleanupConnection_timerInvariant s h
  | wsClose => exact cleanupConnection_timerInvariant s h

theorem run_timerInvariant (now : Int) (inputs : List Input) :
    TimerInvariant (run (Session.connect now) inputs).1 :=
  run_invariant (fun s _ => TimerInvariant s) (fun s _ i h => step_timerInvariant s i h)
    inputs (Session.connect now) []
    ⟨fun t ht => absurd ht (List.not_mem_nil t), fun _ hh => Option.noConfusion hh⟩

/-- C12, as stated, fails: with the timer of a first frame pending (deadline 1700), a
`media` message without `media` member at 1500 makes the `try` block throw only after the
timer was reset; the handler returns with that timer cancelled and a new one pending, with
deadline 2300. -/
theorem C12_counterexample_media_without_payload :
    (run (Session.connect 0) [.message (.media (some (js "frame"))) 900]).1.timers
        = [(0, 1700)]
      ∧ (messageTry (run (Session.connect 0) [.message (.media (some (js "frame"))) 900]).1
          (.media none) 1500).2 = true
      ∧ (onMessage (run (Session.connect 0) [.message (.media (some (js "frame"))) 900]).1
          (.media none) 1500).1.timers = [(1, 2300)] := by
  decide

/-- C12, amended.  The message handler is its `try` block with the exception dropped, so it
never throws, and no malformed frame touches the speech buffer.  After any sequence of
inputs: a message that is not parseable changes nothing and produces nothing.  A `media`
message without payload resets the timer before the payload is read: the timer that was
pending is cancelled and the only pending timer is a new one, with deadline 800 ms after
the message.  When the `media` member itself is missing the read throws and nothing is
forwarded; when the member is there without `payload` nothing throws and the undefined
payload is passed to `transcriptionService.send`. -/
theorem C12_malformed_frames_dropped_after_timer_reset (now0 : Int) (inputs : List Input)
    (now : Int) :
    (∀ data, onMessage (run (Session.connect now0) inputs).1 data now
        = (messageTry (run (Session.connect now0) inputs).1 data now).1)
      ∧ (messageTry (run (Session.connect now0) inputs).1 .unparseable now).2 = true
      ∧ onMessage (run (Session.connect now0) inputs).1 .unparseable now
          = ((run (Session.connect now0) inputs).1, [])
      ∧ (messageTry (run (Session.connect now0) inputs).1 (.media none) now).2 = true
      ∧ (onMessage (run (Session.connect now0) inputs).1 (.media none) now).2 = []
      ∧ (onMessage (run (Session.connect now0) inputs).1 (.media none)
            now).1.connectionState.currentSpeech
          = (run (Session.connect now0) inputs).1.connectionState.currentSpeech
      ∧ (onMessage (run (Session.connect now0) inputs).1 (.media none) now).1.timers
          = [((run (Session.connect now0) inputs).1.nextTimer, now + 800)]
      ∧ (messageTry (run (Session.connect now0) inputs).1 .mediaWithoutPayload now).2 = false
      ∧ (onMessage (run (Session.connect now0) inputs).1 .mediaWithoutPayload now).2
          = [.send none]
      ∧ (onMessage (run (Session.connect now0) inputs).1 .mediaWithoutPayload
            now).1.connectionState.currentSpeech
          = (run (Session.connect now0) inputs).1.connectionState.currentSpeech
      ∧ (onMessage (run (Session.connect now0) inputs).1 .mediaWithoutPayload now).1.timers
          = [((run (Session.connect now0) inputs).1.nextTimer, now + 800)]
      ∧ (∀ t ∈ (run (Session.connect now0) inputs).1.timers,
          t.1 ≠ (run (Session.connect now0) inputs).1.nextTimer) := by
  have hinv := run_timerInvariant now0 inputs
  refine ⟨fun data => onMessage_eq_messageTry _ data now, rfl, rfl, rfl, rfl, rfl, ?_,
    rfl, rfl, rfl, ?_, ?_⟩
  · exact rearmSilenceTimer_timers _ now hinv
  · exact rearmSilenceTimer_timers _ now hinv
  · intro t ht heq
    have h1 := hinv.2 t.1 (hinv.1 t ht)
    omega

theorem asciiToLowerCase_lowersAsciiInPlace : LowersAsciiInPlace asciiToLowerCase := by
  rintro text u ⟨a, b, rfl⟩ _
  exact ⟨asciiToLowerCase a, asciiToLowerCase b, by simp [asciiToLowerCase]⟩

theorem lower_of_canonicalize_eq (c d : Nat) (hd : 97 ≤ d ∧ d ≤ 122)
    (h : canonicalize c = canonicalize d) :
    c < 128 ∧ (if 65 ≤ c ∧ c ≤ 90 then c + 32 else c) = d := by
  unfold canonicalize at h
  rw [if_pos hd] at h
  split at h
  · rename_i hc
    refine ⟨by omega, ?_⟩
    rw [if_neg (by omega)]
    omega
  · rename_i hc
    have h1 : 65 ≤ c ∧ c ≤ 90 := by omega
    refine ⟨by omega, ?_⟩
    rw [if_pos h1]
    omega

theorem asciiToLowerCase_of_canonicalize_eq (u : JsString) :
    ∀ w : JsString, (∀ d ∈ w, 97 ≤ d ∧ d ≤ 122) →
      u.map canonicalize = w.map canonicalize →
      (∀ c ∈ u, c < 128) ∧ asciiToLowerCase u = w := by
  induction u with
  | nil =>
    intro w _ h
    cases w with
    | nil => exact ⟨by simp, rfl⟩
    | cons d ds => simp at h
  | cons c cs ih =>
    intro w hw h
    cases w with
    | nil => simp at h
    | cons d ds =>
      simp only [List.map_cons, List.cons.injEq] at h
      have hc := lower_of_canonicalize_eq c d (hw d (List.mem_cons_self _ _)) h.1
      have hcs := ih ds (fun x hx => hw x (List.mem_cons_of_mem _ hx)) h.2
      refine ⟨?_, ?_⟩
      · intro x hx
        rcases List.mem_cons.mp hx with rfl | hx
        · exact hc.1
        · exact hcs.1 x hx
      · simp only [asciiToLowerCase, List.map_cons, List.cons.injEq]
        exact ⟨hc.2, hcs.2⟩

theorem occurs_lowered (toLowerCase : JsString → JsString) (h : LowersAsciiInPlace toLowerCase)
    (w text : JsString) (hw : ∀ d ∈ w, 97 ≤ d ∧ d ≤ 122) (ho : OccursIgnoreCase w text) :
    w <:+: toLowerCase text := by
  obtain ⟨u, hu, hc⟩ := ho
  obtain ⟨h1, h2⟩ := asciiToLowerCase_of_canonicalize_eq u w hw hc
  rw [← h2]
  exact h text u hu h1

theorem beforeGeneral_of_hvac_keyword (lowered k : JsString)
    (hk : k ∈ [js "heat", js "air", js "ac", js "furnace", js "hvac", js "cooling",
      js "temperature"])
    (h : k <:+: lowered) :
    BeforeGeneral (determineServiceTypeLoop lowered serviceKeywords) := by
  have hh : ([js "heat", js "air", js "ac", js "furnace", js "hvac", js "cooling",
      js "temperature"].any fun keyword => includes lowered keyword) = true :=
    List.any_eq_true.mpr ⟨k, hk, (includes_iff_occurs _ _).mpr h⟩
  simp only [serviceKeywords, determineServiceTypeLoop]
  split
  · exact Or.inl rfl
  · split
    · exact Or.inr (Or.inl rfl)
    · exact Or.inr (Or.inr rfl)

/-- C13. When "repair" or "crack" occurs in the lower-cased text, and so when either occurs
in the text in any letter case (for a `toLowerCase` that lower-cases ASCII in place),
`determineServiceType` returns plumbing, electrical or hvac, never general and never `null`:
the hvac keywords "air" and "ac" occur in "repair" and "crack", and hvac is tried before
general.  So when the result is general, neither "repair" nor "crack" occurs in the
lower-cased text. -/
theorem C13_repair_and_crack_never_decide (toLowerCase : JsString → JsString)
    (text : JsString) :
    (js "repair" <:+: toLowerCase text ∨ js "crack" <:+: toLowerCase text →
        BeforeGeneral (determineServiceType toLowerCase text))
      ∧ (LowersAsciiInPlace toLowerCase →
          OccursIgnoreCase (js "repair") text ∨ OccursIgnoreCase (js "crack") text →
          BeforeGeneral (determineServiceType toLowerCase text))
      ∧ (determineServiceType toLowerCase text = some .general →
          ¬ js "repair" <:+: toLowerCase text ∧ ¬ js "crack" <:+: toLowerCase text)
      ∧ js "air" <:+: js "repair" ∧ js "ac" <:+: js "crack"
      ∧ ServiceType.hvac.rank < ServiceType.general.rank := by
  have hair : js "air" <:+: js "repair" := ⟨js "rep", [], by decide⟩
  have hac : js "ac" <:+: js "crack" := ⟨js "cr", js "k", by decide⟩
  have main : js "repair" <:+: toLowerCase text ∨ js "crack" <:+: toLowerCase text →
      BeforeGeneral (determineServiceType toLowerCase text) := by
    rintro (h | h)
    · exact beforeGeneral_of_hvac_keyword _ (js "air") (by simp) (hair.trans h)
    · exact beforeGeneral_of_hvac_keyword _ (js "ac") (by simp) (hac.trans h)
  refine ⟨main, ?_, ?_, hair, hac, by decide⟩
  · rintro hl (h | h)
    · exact main (Or.inl (occurs_lowered toLowerCase hl _ text (by decide) h))
    · exact main (Or.inr (occurs_lowered toLowerCase hl _ text (by decide) h))
  · intro hg
    constructor
    · intro h
      rcases main (Or.inl h) with h' | h' | h' <;> rw [hg] at h' <;> cases h'
    · intro h
      rcases main (Or.inr h) with h' | h' | h' <;> rw [hg] at h' <;> cases h'

/-- C13 at "Please REPAIR the Crack": the category is hvac. -/
theorem C13_repair_and_crack_never_decide_witness :
    determineServiceType asciiToLowerCase (js "Please REPAIR the Crack") = some .hvac
      ∧ BeforeGeneral (determineServiceType asciiToLowerCase (js "Please REPAIR the Crack")) :=
  ⟨by decide,
   (C13_repair_and_crack_never_decide asciiToLowerCase (js "Please REPAIR the Crack")).2.1
     asciiToLowerCase_lowersAsciiInPlace
     (Or.inl ⟨js "REPAIR", ⟨js "Please ", js " the Crack", by decide⟩, by decide⟩)⟩

end StableAgents
